import Mathlib

/-!
# AnKi 3D engine: command execution, SSAO passes, scene components, XML getters, shader parser

A shallow embedding of selected routines of the engine, followed by theorems about them.

* `CommandBufferImpl::executeAllCommands` (src/anki/gr/gl/CommandBufferImpl.cpp)
* `Ssao::populateRenderGraph` (src/anki/renderer/Ssao.cpp)
* `SceneNode::tryGetComponent` (include/anki/scene/SceneNode.h)
* `XmlElement` getters (src/anki/misc/Xml.cpp)
* `ShaderParser::parseFile`, `parseFileForPragmas`, `findShaderVar` (src/resources/ShaderParser.cpp)
* the command sequence of the test Gr, DrawOffscreen (tests/gr/Gr.cpp)

Conventions: C++ out-parameters become components of the returned value, pointers that may be
null become `Option`, and an `ANKI_ASSERT` that fails is the result `none`.
-/

set_option autoImplicit false

namespace anki

/-! ## Definitions -/

/-- Error codes of the engine. The enumeration is declared in util/StdTypes.h; the routines
embedded here only produce `NONE` and `USER_DATA` themselves and pass the others through. -/
inductive ErrorCode where
  | NONE
  | OUT_OF_MEMORY
  | FUNCTION_FAILED
  | USER_DATA
  | FILE_NOT_FOUND
  | FILE_ACCESS
  | UNKNOWN
  deriving DecidableEq, Repr

/-- The class `Error` wraps an `ErrorCode`. -/
abbrev Error := ErrorCode

/-- Conversion of an `Error` to a boolean (`operator Bool`): true exactly when the code is
not `NONE`, so `!err` in the source reads `err.isErr = false`. -/
def Error.isErr (e : Error) : Bool :=
  e != ErrorCode.NONE

/-! ### CommandBufferImpl -/

/-- A recorded command. `GlCommand::operator()(GlState&)` may mutate the state it is handed and
returns an `Error`; here it maps the state to the error and the new state. -/
structure GlCommand (GlState : Type) where
  call : GlState → Error × GlState

/-- The command buffer. The chain `m_firstCommand`, `m_nextCommand`, ..., ending in `nullptr`,
is the list `m_commands`; `m_lastCommand` is its last node. -/
structure CommandBufferImpl (GlState : Type) where
  m_commands : List (GlCommand GlState)

/-- The outcome of `executeAllCommands`: the returned error, the state the commands left behind
and, as a ghost record, the commands that were invoked, oldest first. -/
structure ExecResult (GlState : Type) where
  err : Error
  state : GlState
  invoked : List (GlCommand GlState)

/-- The loop `while(command != nullptr && !err) { err = (*command)(state); command =
command->m_nextCommand; }`. The first argument is the rest of the chain starting at `command`.
The macro `ANKI_CHECK_GL_ERROR()` in the body is a debugging aid that does not touch `err` or
`command` and is left out. -/
def executeLoop {GlState : Type} :
    List (GlCommand GlState) → Error → GlState → List (GlCommand GlState) → ExecResult GlState
  | [], err, state, invoked => ⟨err, state, invoked⟩
  | command :: next, err, state, invoked =>
    if err.isErr then ⟨err, state, invoked⟩
    else executeLoop next (command.call state).1 (command.call state).2 (invoked ++ [command])

/-- `CommandBufferImpl::executeAllCommands`. The two assertions require a non-empty chain; the
debug-only flag `m_executed` does not influence the result and is left out. -/
def CommandBufferImpl.executeAllCommands {GlState : Type} (self : CommandBufferImpl GlState)
    (state : GlState) : Option (ExecResult GlState) :=
  if self.m_commands.isEmpty then none
  else some (executeLoop self.m_commands ErrorCode.NONE state [])

/-- State reached by invoking the given commands one after the other, whatever they return.
Used only to name the state at which the k-th command of a chain is invoked. -/
def stateAfter {GlState : Type} (cmds : List (GlCommand GlState)) (state : GlState) : GlState :=
  cmds.foldl (fun s c => (c.call s).2) state

/-! ### Render graph description (interface used by Ssao) -/

/-- Usage modes of a texture named in src/anki/renderer/Ssao.cpp. -/
inductive TextureUsageBit where
  | NONE
  | SAMPLED_FRAGMENT
  | FRAMEBUFFER_ATTACHMENT_WRITE
  | CLEAR
  deriving DecidableEq, Repr

/-- A texture owned by a renderer stage (`TexturePtr`), identified by a number. -/
abbrev TexturePtr := Nat

/-- Handle of a render target inside one render graph description. -/
structure RenderTargetHandle where
  m_idx : Nat
  deriving DecidableEq, Repr

/-- One dependency declaration of a pass, the argument of `newConsumer` and `newProducer`:
the braces `{handle, usage}` in the source. -/
structure RenderPassDependency where
  m_handle : RenderTargetHandle
  m_usage : TextureUsageBit
  deriving DecidableEq, Repr

/-- Load operation of an attachment. -/
inductive AttachmentLoadOperation where
  | LOAD
  | CLEAR
  | DONT_CARE
  deriving DecidableEq, Repr

/-- The part of `FramebufferDescription` that `Ssao::init` fills in. -/
structure FramebufferDescription where
  m_colorAttachmentCount : Nat
  m_colorAttachment0LoadOperation : AttachmentLoadOperation
  deriving DecidableEq, Repr

/-- The work callbacks that Ssao hands to `setWork`. -/
inductive RenderPassWorkCallback where
  | runMainCallback
  | runHBlurCallback
  | runVBlurCallback
  deriving DecidableEq, Repr

/-- Modelled from the spec: the pass descriptor of section 3 and 4.2 (RenderGraph.h is not among
the sources). It holds a name, the callback attached by `setWork`, the framebuffer descriptor
with its attachment handles set by `setFramebufferInfo`, and the two ordered lists of
consumer and producer declarations. -/
structure GraphicsRenderPassDescription where
  m_name : String
  m_work : Option RenderPassWorkCallback
  m_fbDescr : Option FramebufferDescription
  m_colorRtHandles : List RenderTargetHandle
  m_depthStencilRtHandle : Option RenderTargetHandle
  m_consumers : List RenderPassDependency
  m_producers : List RenderPassDependency
  deriving DecidableEq, Repr

/-- Modelled from the spec: `setWork(callback, userData, ...)` attaches the recording callback
(section 4.2). -/
def GraphicsRenderPassDescription.setWork (pass : GraphicsRenderPassDescription)
    (callback : RenderPassWorkCallback) : GraphicsRenderPassDescription :=
  { pass with m_work := some callback }

/-- Modelled from the spec: `setFramebufferInfo(descriptor, colorHandles, depthHandle)` stores the
descriptor and the attachment handles (section 4.2). It declares no producer by itself: the
graph does not infer producers from the framebuffer descriptor (section 3). -/
def GraphicsRenderPassDescription.setFramebufferInfo (pass : GraphicsRenderPassDescription)
    (fbDescr : FramebufferDescription) (colorRts : List RenderTargetHandle)
    (depthStencilRt : Option RenderTargetHandle) : GraphicsRenderPassDescription :=
  { pass with m_fbDescr := some fbDescr, m_colorRtHandles := colorRts,
              m_depthStencilRtHandle := depthStencilRt }

/-- Modelled from the spec: `newConsumer` appends a dependency declaration to the consumer list
(section 4.2). -/
def GraphicsRenderPassDescription.newConsumer (pass : GraphicsRenderPassDescription)
    (dep : RenderPassDependency) : GraphicsRenderPassDescription :=
  { pass with m_consumers := pass.m_consumers ++ [dep] }

/-- Modelled from the spec: `newProducer` appends a dependency declaration to the producer list
(section 4.2). -/
def GraphicsRenderPassDescription.newProducer (pass : GraphicsRenderPassDescription)
    (dep : RenderPassDependency) : GraphicsRenderPassDescription :=
  { pass with m_producers := pass.m_producers ++ [dep] }

/-- An imported render target: the arguments of `importRenderTarget`. -/
structure ImportedRenderTarget where
  m_name : String
  m_tex : TexturePtr
  m_usage : TextureUsageBit
  deriving DecidableEq, Repr

/-- Modelled from the spec: the graph description of one frame, with its resource handle table
and its pass list in registration order (sections 2 and 3). -/
structure RenderGraphDescription where
  m_renderTargets : List ImportedRenderTarget
  m_passes : List GraphicsRenderPassDescription
  deriving DecidableEq, Repr

/-- Modelled from the spec: `importRenderTarget(name, texture, usage)` registers an externally
owned resource with its presumed current access state and issues its handle (section 4.1);
handles are small integers (section 3), here the position in the handle table. -/
def RenderGraphDescription.importRenderTarget (rgraph : RenderGraphDescription) (name : String)
    (tex : TexturePtr) (usage : TextureUsageBit) : RenderTargetHandle × RenderGraphDescription :=
  (⟨rgraph.m_renderTargets.length⟩,
   { rgraph with m_renderTargets := rgraph.m_renderTargets ++ [⟨name, tex, usage⟩] })

/-- Modelled from the spec: `newGraphicsRenderPass(name)` appends a pass to the pass list of the
frame and returns a mutable builder (section 4.2). The statements that the caller runs on the
builder are the function `build`, applied to the fresh pass. -/
def RenderGraphDescription.newGraphicsRenderPass (rgraph : RenderGraphDescription) (name : String)
    (build : GraphicsRenderPassDescription → GraphicsRenderPassDescription) :
    RenderGraphDescription :=
  { rgraph with m_passes := rgraph.m_passes ++ [build ⟨name, none, none, [], none, [], []⟩] }

/-! ### Ssao -/

/-- A two-element array `Array<T, 2>`, indexed by 0 and 1. -/
structure Array2 (α : Type) where
  e0 : α
  e1 : α
  deriving DecidableEq, Repr

/-- Read `a[i]`. -/
def Array2.get {α : Type} (a : Array2 α) (i : Nat) : α :=
  if i = 0 then a.e0 else a.e1

/-- Write `a[i] = v`. -/
def Array2.set {α : Type} (a : Array2 α) (i : Nat) (v : α) : Array2 α :=
  if i = 0 then { a with e0 := v } else { a with e1 := v }

/-- What Ssao reads from the renderer `m_r`: the frame count and the handles that the G-buffer
stage and the depth downscale stage registered in the graph of this frame. -/
structure Renderer where
  frameCount : Nat
  gbufferColorRt2 : RenderTargetHandle
  quarterColorRt : RenderTargetHandle
  deriving DecidableEq, Repr

/-- The members of `Ssao` that `populateRenderGraph` reads or writes; `m_rts` is
`m_runCtx.m_rts`. -/
structure Ssao where
  m_r : Renderer
  m_rtTextures : Array2 TexturePtr
  m_fbDescr : FramebufferDescription
  m_rts : Array2 RenderTargetHandle
  deriving DecidableEq, Repr

/-- `Ssao::populateRenderGraph`. The graph description `ctx.m_renderGraphDescr` is passed in and
returned together with the updated stage. -/
def Ssao.populateRenderGraph (self : Ssao) (rgraph : RenderGraphDescription) :
    Ssao × RenderGraphDescription :=
  -- Create RTs
  let rtToRenderIdx : Nat := self.m_r.frameCount &&& 1
  let imp1 := rgraph.importRenderTarget "SSAO #1" (self.m_rtTextures.get rtToRenderIdx)
    TextureUsageBit.NONE
  let m_rts := self.m_rts.set rtToRenderIdx imp1.1
  let rgraph := imp1.2
  let rtToReadIdx : Nat := if rtToRenderIdx = 0 then 1 else 0
  let imp2 := rgraph.importRenderTarget "SSAO #2" (self.m_rtTextures.get rtToReadIdx)
    TextureUsageBit.SAMPLED_FRAGMENT
  let m_rts := m_rts.set rtToReadIdx imp2.1
  let rgraph := imp2.2
  -- Create main render pass
  let rgraph := rgraph.newGraphicsRenderPass "SSAO main" (fun pass =>
    let pass := pass.setWork RenderPassWorkCallback.runMainCallback
    let pass := pass.setFramebufferInfo self.m_fbDescr [m_rts.get rtToRenderIdx] none
    let pass := pass.newConsumer ⟨self.m_r.gbufferColorRt2, TextureUsageBit.SAMPLED_FRAGMENT⟩
    let pass := pass.newConsumer
      ⟨m_rts.get rtToRenderIdx, TextureUsageBit.FRAMEBUFFER_ATTACHMENT_WRITE⟩
    let pass := pass.newConsumer ⟨m_rts.get rtToReadIdx, TextureUsageBit.SAMPLED_FRAGMENT⟩
    let pass := pass.newConsumer ⟨self.m_r.quarterColorRt, TextureUsageBit.SAMPLED_FRAGMENT⟩
    pass.newProducer ⟨m_rts.get rtToRenderIdx, TextureUsageBit.FRAMEBUFFER_ATTACHMENT_WRITE⟩)
  -- Create HBlur pass
  let rgraph := rgraph.newGraphicsRenderPass "SSAO hblur" (fun pass =>
    let pass := pass.setWork RenderPassWorkCallback.runHBlurCallback
    let pass := pass.setFramebufferInfo self.m_fbDescr [m_rts.get rtToReadIdx] none
    let pass := pass.newConsumer
      ⟨m_rts.get rtToReadIdx, TextureUsageBit.FRAMEBUFFER_ATTACHMENT_WRITE⟩
    let pass := pass.newConsumer ⟨m_rts.get rtToRenderIdx, TextureUsageBit.SAMPLED_FRAGMENT⟩
    let pass := pass.newConsumer ⟨self.m_r.quarterColorRt, TextureUsageBit.SAMPLED_FRAGMENT⟩
    pass.newProducer ⟨m_rts.get rtToReadIdx, TextureUsageBit.FRAMEBUFFER_ATTACHMENT_WRITE⟩)
  -- Create VBlur pass
  let rgraph := rgraph.newGraphicsRenderPass "SSAO vblur" (fun pass =>
    let pass := pass.setWork RenderPassWorkCallback.runVBlurCallback
    let pass := pass.setFramebufferInfo self.m_fbDescr [m_rts.get rtToRenderIdx] none
    let pass := pass.newConsumer
      ⟨m_rts.get rtToRenderIdx, TextureUsageBit.FRAMEBUFFER_ATTACHMENT_WRITE⟩
    let pass := pass.newConsumer ⟨m_rts.get rtToReadIdx, TextureUsageBit.SAMPLED_FRAGMENT⟩
    let pass := pass.newConsumer ⟨self.m_r.quarterColorRt, TextureUsageBit.SAMPLED_FRAGMENT⟩
    pass.newProducer ⟨m_rts.get rtToRenderIdx, TextureUsageBit.FRAMEBUFFER_ATTACHMENT_WRITE⟩)
  ({ self with m_rts := m_rts }, rgraph)

/-- The passes that `Ssao::populateRenderGraph` registers, in registration order: the passes of
the resulting description behind those that were there before the call. -/
def Ssao.registeredPasses (self : Ssao) (rgraph : RenderGraphDescription) :
    List GraphicsRenderPassDescription :=
  (self.populateRenderGraph rgraph).2.m_passes.drop rgraph.m_passes.length

/-- The handles `m_runCtx.m_rts` after `Ssao::populateRenderGraph`. -/
def Ssao.importedRts (self : Ssao) (rgraph : RenderGraphDescription) : Array2 RenderTargetHandle :=
  (self.populateRenderGraph rgraph).1.m_rts

/-- The pass declares the handle as a consumer, with any usage. -/
def GraphicsRenderPassDescription.consumes (pass : GraphicsRenderPassDescription)
    (h : RenderTargetHandle) : Prop :=
  ∃ dep ∈ pass.m_consumers, dep.m_handle = h

/-- The pass declares the handle as a consumer with usage `SAMPLED_FRAGMENT`: it reads it. -/
def GraphicsRenderPassDescription.samples (pass : GraphicsRenderPassDescription)
    (h : RenderTargetHandle) : Prop :=
  (⟨h, TextureUsageBit.SAMPLED_FRAGMENT⟩ : RenderPassDependency) ∈ pass.m_consumers

/-- The pass declares the handle as a producer, with any usage. -/
def GraphicsRenderPassDescription.produces (pass : GraphicsRenderPassDescription)
    (h : RenderTargetHandle) : Prop :=
  ∃ dep ∈ pass.m_producers, dep.m_handle = h

/-- The shape of the cycle scenario of section 8 of the spec: A consumes R1 and produces R2
while B consumes R2 and produces R1. -/
def cyclicShape (A B : GraphicsRenderPassDescription) (R1 R2 : RenderTargetHandle) : Prop :=
  A.consumes R1 ∧ A.produces R2 ∧ B.consumes R2 ∧ B.produces R1

instance (pass : GraphicsRenderPassDescription) (h : RenderTargetHandle) :
    Decidable (pass.consumes h) := by
  unfold GraphicsRenderPassDescription.consumes; infer_instance

instance (pass : GraphicsRenderPassDescription) (h : RenderTargetHandle) :
    Decidable (pass.samples h) := by
  unfold GraphicsRenderPassDescription.samples; infer_instance

instance (pass : GraphicsRenderPassDescription) (h : RenderTargetHandle) :
    Decidable (pass.produces h) := by
  unfold GraphicsRenderPassDescription.produces; infer_instance

instance (A B : GraphicsRenderPassDescription) (R1 R2 : RenderTargetHandle) :
    Decidable (cyclicShape A B R1 R2) := by
  unfold cyclicShape; infer_instance

/-- A renderer in frame 0 whose G-buffer colour target 2 and quarter-resolution depth target
have the handles 0 and 1. -/
def exampleRenderer : Renderer :=
  ⟨0, ⟨0⟩, ⟨1⟩⟩

/-- An SSAO stage after `init`: one colour attachment, load operation DONT_CARE. -/
def exampleSsao : Ssao :=
  ⟨exampleRenderer, ⟨10, 11⟩, ⟨1, AttachmentLoadOperation.DONT_CARE⟩, ⟨⟨0⟩, ⟨0⟩⟩⟩

/-- A graph description in which the two targets of `exampleRenderer` are registered and no
pass yet. -/
def exampleGraph : RenderGraphDescription :=
  ⟨[⟨"GBuffer colour 2", 2, TextureUsageBit.NONE⟩, ⟨"Depth quarter", 3, TextureUsageBit.NONE⟩], []⟩

/-! ### SceneNode -/

/-- The type tag of a scene component (`SceneComponent::Type`), returned by `getType()` and, for
a component class, by `Component::getClassType()`. -/
abbrev SceneComponentType := Nat

/-- A scene component as the node sees it: its type tag and the identity of the object (the
pointer stored in the container). -/
structure SceneComponent where
  m_type : SceneComponentType
  m_ptr : Nat
  deriving DecidableEq, Repr

/-- `SceneComponent::getType`. -/
def SceneComponent.getType (comp : SceneComponent) : SceneComponentType :=
  comp.m_type

/-- The component container of a `SceneNode`: `m_components` holds the components in the order
in which `addComponent` appended them, `m_componentsCount` (a U8) is the number of slots in
use, which never exceeds the size of the container. -/
structure SceneNode where
  m_components : List SceneComponent
  m_componentsCount : Nat
  m_countLe : m_componentsCount ≤ m_components.length

/-- The loop `while(count-- != 0) { if(m_components[count]->getType() == type) return
&m_components[count]->downCast<Component>(); } return nullptr;`. The argument is the value of
`count` before the test; the body runs with the decremented value. -/
def tryGetComponentLoop (m_components : List SceneComponent) (type : SceneComponentType) :
    (count : Nat) → count ≤ m_components.length → Option SceneComponent
  | 0, _ => none
  | count + 1, h =>
    if (m_components.get ⟨count, h⟩).getType = type then some (m_components.get ⟨count, h⟩)
    else tryGetComponentLoop m_components type count (Nat.le_of_succ_le h)

/-- `SceneNode::tryGetComponent<Component>()`, both the const and the non-const overload; `type`
is `Component::getClassType()` and `none` is `nullptr`. -/
def SceneNode.tryGetComponent (self : SceneNode) (type : SceneComponentType) :
    Option SceneComponent :=
  tryGetComponentLoop self.m_components type self.m_componentsCount self.m_countLe

/-- A node with two components of type 1, added in the order 100, 200, and one of type 2. -/
def exampleSceneNode : SceneNode :=
  ⟨[⟨1, 100⟩, ⟨2, 150⟩, ⟨1, 200⟩], 3, by decide⟩

/-! ### XmlElement -/

/-- An element of a tinyxml2 document: its name (`Name()`, also `Value()`), its text
(`GetText()`, null when there is none), its attributes (name and value) and its child
elements in document order. -/
inductive XMLNode where
  | mk (name : String) (text : Option String) (attributes : List (String × Option String))
      (children : List XMLNode)

/-- `Name()` of an element. -/
def XMLNode.name : XMLNode → String
  | .mk name _ _ _ => name

/-- `GetText()` of an element. -/
def XMLNode.text : XMLNode → Option String
  | .mk _ text _ _ => text

/-- The attributes of an element. -/
def XMLNode.attributes : XMLNode → List (String × Option String)
  | .mk _ _ attributes _ => attributes

/-- The child elements of an element. -/
def XMLNode.children : XMLNode → List XMLNode
  | .mk _ _ _ children => children

/-- A non-null `const tinyxml2::XMLElement*`: the element pointed to together with the elements
that follow it among the children of its parent, which is what `NextSiblingElement` walks. -/
structure XMLElement where
  node : XMLNode
  nextSiblings : List XMLNode

/-- The search shared by `FirstChildElement(name)` and `NextSiblingElement(name)` of tinyxml2:
walk the nodes in order and return the first element of the given name, null when none. -/
def firstElementNamed (name : String) : List XMLNode → Option XMLElement
  | [] => none
  | node :: rest => if node.name = name then some ⟨node, rest⟩ else firstElementNamed name rest

/-- `XMLElement::FirstChildElement(name)` of tinyxml2, for a non-null name. -/
def XMLElement.FirstChildElement (el : XMLElement) (name : String) : Option XMLElement :=
  firstElementNamed name el.node.children

/-- `XMLElement::NextSiblingElement(name)` of tinyxml2, for a non-null name. -/
def XMLElement.NextSiblingElement (el : XMLElement) (name : String) : Option XMLElement :=
  firstElementNamed name el.nextSiblings

/-- The class `XmlElement`: the wrapped pointer `m_el`, null for an empty element. The
allocator `m_alloc` plays no role in the results. -/
structure XmlElement where
  m_el : Option XMLElement

/-- The empty element `XmlElement()`. -/
def XmlElement.empty : XmlElement :=
  ⟨none⟩

/-- Conversion `operator Bool` of an `XmlElement`: the element wraps a non-null pointer. -/
def XmlElement.toBool (self : XmlElement) : Bool :=
  self.m_el.isSome

/-- `XmlElement::check`. -/
def XmlElement.check (self : XmlElement) : Error :=
  let err := ErrorCode.NONE
  if self.m_el.isNone then ErrorCode.USER_DATA else err

/-- `XmlElement::getChildElementOptional(name, out)`; returns the error and `out`. The
dereference of `m_el` happens only after `check` succeeded. -/
def XmlElement.getChildElementOptional (self : XmlElement) (name : String) : Error × XmlElement :=
  let err := self.check
  if !err.isErr then (err, ⟨self.m_el.bind (fun el => el.FirstChildElement name)⟩)
  else (err, XmlElement.empty)

/-- `XmlElement::getChildElement(name, out)`; returns the error and `out`. -/
def XmlElement.getChildElement (self : XmlElement) (name : String) : Error × XmlElement :=
  let err := self.check
  if err.isErr then (err, XmlElement.empty)
  else
    let r := self.getChildElementOptional name
    if r.1.isErr then r
    else if !r.2.toBool then (ErrorCode.USER_DATA, r.2)
    else r

/-- The loop `do { el = el->NextSiblingElement(m_el->Name()); ++count; } while(el);` of
`getSiblingElementsCount`, with a bound on the number of iterations: `none` when the bound is
used up before the loop ends. -/
def getSiblingElementsCountLoop (name : String) : Nat → XMLElement → Int → Option Int
  | 0, _, _ => none
  | fuel + 1, el, count =>
    match el.NextSiblingElement name with
    | some next => getSiblingElementsCountLoop name fuel next (count + 1)
    | none => some (count + 1)

/-- `XmlElement::getSiblingElementsCount(out)`; returns the error and `out`, or `none` when the
loop does not end within `fuel` iterations. The counter `count` has the type I, the fast
signed integer of at least 32 bits (64 bits wide on 64-bit Linux), here an integer without
bound; its assignment to the U32 `out` converts it modulo 2^32. -/
def XmlElement.getSiblingElementsCount (fuel : Nat) (self : XmlElement) (out : Nat) :
    Option (Error × Nat) :=
  if self.check.isErr then some (self.check, out)
  else
    match self.m_el with
    | none => some (self.check, out)
    | some el =>
      match getSiblingElementsCountLoop el.node.name fuel el (-1) with
      | none => none
      | some count => some (ErrorCode.NONE, (count % 2 ^ 32).toNat)

/-- The siblings that follow the element and have its tag name. -/
def XMLElement.sameNameSiblings (el : XMLElement) : List XMLNode :=
  el.nextSiblings.filter (fun node => node.name = el.node.name)

/-! ### XmlElement: vector and matrix getters -/

/-- A vector or matrix of `n` floats under its linear index `out[i]`: `Vec2`, `Vec3`, `Vec4`,
`Mat3` and `Mat4` have 2, 3, 4, 9 and 16 elements. The float type `F32` is a parameter; the
getters only copy its values. -/
abbrev FloatArray (F32 : Type) (n : Nat) := Fin n → F32

/-- Two floats. -/
abbrev Vec2 (F32 : Type) := FloatArray F32 2

/-- Three floats. -/
abbrev Vec3 (F32 : Type) := FloatArray F32 3

/-- Four floats. -/
abbrev Vec4 (F32 : Type) := FloatArray F32 4

/-- Nine floats. -/
abbrev Mat3 (F32 : Type) := FloatArray F32 9

/-- Sixteen floats. -/
abbrev Mat4 (F32 : Type) := FloatArray F32 16

/-- The assignment `out[i] = v`. -/
def FloatArray.setElem {F32 : Type} {n : Nat} (out : FloatArray F32 n) (i : Nat) (v : F32) :
    FloatArray F32 n :=
  if h : i < n then Function.update out ⟨i, h⟩ v else out

/-- The loop `for(U i = 0; i < N; i++) { out[i] = arr[i]; }` of getVec2, getVec3 and getVec4,
entered at index `i` with `remaining = N - i` iterations to go. The read `arr[i]` is inside
the array in every call the getters make, because they check its size first. -/
def copyLoop {F32 : Type} {n : Nat} (arr : List F32) :
    (remaining : Nat) → (i : Nat) → FloatArray F32 n → FloatArray F32 n
  | 0, _, out => out
  | remaining + 1, i, out =>
    match arr[i]? with
    | some v => copyLoop arr remaining (i + 1) (out.setElem i v)
    | none => copyLoop arr remaining (i + 1) out

/-- The loop `for(U i = 0; i < N && !err; i++) { out[i] = arr[i]; }` of getMat3 and getMat4. -/
def copyLoopChecked {F32 : Type} {n : Nat} (arr : List F32) (err : Error) :
    (remaining : Nat) → (i : Nat) → FloatArray F32 n → FloatArray F32 n
  | 0, _, out => out
  | remaining + 1, i, out =>
    if err.isErr then out
    else
      match arr[i]? with
      | some v => copyLoopChecked arr err remaining (i + 1) (out.setElem i v)
      | none => copyLoopChecked arr err remaining (i + 1) out

/-- The end of every getter: `if(err) { ANKI_MISC_LOGE("...", m_el->Value()); } return err;`.
The log statement reads through `m_el`, so with an error on an element without underlying
node the getter dereferences a null pointer: the result `none`. -/
def XmlElement.logAndReturn {α : Type} (self : XmlElement) (err : Error) (out : α) :
    Option (Error × α) :=
  if err.isErr then
    match self.m_el with
    | none => none
    | some _ => some (err, out)
  else some (err, out)

/-- `XmlElement::getMat3(out)`. The member `getNumbers`, which is not part of Xml.cpp, is a
parameter: it yields an error and the parsed numbers `arr`. -/
def XmlElement.getMat3 {F32 : Type} (getNumbers : XmlElement → Error × List F32)
    (self : XmlElement) (out : Mat3 F32) : Option (Error × Mat3 F32) :=
  let arr := (getNumbers self).2
  let err : Error := (getNumbers self).1
  let err : Error := if !err.isErr && arr.length != 9 then ErrorCode.USER_DATA else err
  let out := if !err.isErr then copyLoopChecked arr err 9 0 out else out
  self.logAndReturn err out

/-- `XmlElement::getMat4(out)`. -/
def XmlElement.getMat4 {F32 : Type} (getNumbers : XmlElement → Error × List F32)
    (self : XmlElement) (out : Mat4 F32) : Option (Error × Mat4 F32) :=
  let arr := (getNumbers self).2
  let err : Error := (getNumbers self).1
  let err : Error := if !err.isErr && arr.length != 16 then ErrorCode.USER_DATA else err
  let out := if !err.isErr then copyLoopChecked arr err 16 0 out else out
  self.logAndReturn err out

/-- `XmlElement::getVec2(out)`. -/
def XmlElement.getVec2 {F32 : Type} (getNumbers : XmlElement → Error × List F32)
    (self : XmlElement) (out : Vec2 F32) : Option (Error × Vec2 F32) :=
  let arr := (getNumbers self).2
  let err : Error := (getNumbers self).1
  let err : Error := if !err.isErr && arr.length != 2 then ErrorCode.USER_DATA else err
  let out := if !err.isErr then copyLoop arr 2 0 out else out
  self.logAndReturn err out

/-- `XmlElement::getVec3(out)`. -/
def XmlElement.getVec3 {F32 : Type} (getNumbers : XmlElement → Error × List F32)
    (self : XmlElement) (out : Vec3 F32) : Option (Error × Vec3 F32) :=
  let arr := (getNumbers self).2
  let err : Error := (getNumbers self).1
  let err : Error := if !err.isErr && arr.length != 3 then ErrorCode.USER_DATA else err
  let out := if !err.isErr then copyLoop arr 3 0 out else out
  self.logAndReturn err out

/-- `XmlElement::getVec4(out)`. -/
def XmlElement.getVec4 {F32 : Type} (getNumbers : XmlElement → Error × List F32)
    (self : XmlElement) (out : Vec4 F32) : Option (Error × Vec4 F32) :=
  let arr := (getNumbers self).2
  let err : Error := (getNumbers self).1
  let err : Error := if !err.isErr && arr.length != 4 then ErrorCode.USER_DATA else err
  let out := if !err.isErr then copyLoop arr 4 0 out else out
  self.logAndReturn err out

/-- An element named a that is followed by 2^32 siblings of the same name. -/
def elementWithManySiblings : XMLElement :=
  ⟨XMLNode.mk "a" none [] [], List.replicate (2 ^ 32) (XMLNode.mk "a" none [] [])⟩

/-! ### XmlElement: text and attributes -/

/-- The class `CString`, a pointer to characters: the default `CString()` holds the null
pointer, here `none`. -/
abbrev CString := Option String

/-- `XMLElement::GetText()` of tinyxml2: the text of the element, null when it has none. -/
def XMLElement.GetText (el : XMLElement) : Option String :=
  el.node.text

/-- `XMLElement::FindAttribute(name)` of tinyxml2: the first attribute of that name, null when
there is none. The second component of the result is `XMLAttribute::Value()`. -/
def XMLElement.FindAttribute (el : XMLElement) (name : String) :
    Option (String × Option String) :=
  el.node.attributes.find? (fun attrib => attrib.1 = name)

/-- `XmlElement::getText(out)`; returns the error and `out`. -/
def XmlElement.getText (self : XmlElement) : Error × CString :=
  let err := self.check
  if !err.isErr && (self.m_el.bind (fun el => el.GetText)).isSome then
    (err, self.m_el.bind (fun el => el.GetText))
  else (err, none)

/-- `XmlElement::getNextSiblingElement(name, out)`; returns the error and `out`. -/
def XmlElement.getNextSiblingElement (self : XmlElement) (name : String) : Error × XmlElement :=
  let err := self.check
  if !err.isErr then (err, ⟨self.m_el.bind (fun el => el.NextSiblingElement name)⟩)
  else (err, XmlElement.empty)

/-- `XmlElement::getAttributeTextOptional(name, out, attribPresent)`; returns the error, `out`
and `attribPresent`. `ANKI_CHECK(check())` returns the error of `check` at once. -/
def XmlElement.getAttributeTextOptional (self : XmlElement) (name : String) (out : CString)
    (attribPresent : Bool) : Error × CString × Bool :=
  if self.check.isErr then (self.check, out, attribPresent)
  else
    match self.m_el.bind (fun el => el.FindAttribute name) with
    | none => (ErrorCode.NONE, out, false)
    | some attrib =>
      match attrib.2 with
      | some value => (ErrorCode.NONE, some value, true)
      | none => (ErrorCode.NONE, none, true)

/-! ### ShaderParser -/

/-- Token codes of the scanner that the shader parser looks at; `TC_OTHER` stands for every
other code. -/
inductive Scanner.TokenCode where
  | TC_ERROR
  | TC_EOF
  | TC_NEWLINE
  | TC_SHARP
  | TC_IDENTIFIER
  | TC_STRING
  | TC_NUMBER
  | TC_OTHER
  deriving DecidableEq, Repr

/-- Data types of a scanner token. -/
inductive Scanner.DataType where
  | DT_FLOAT
  | DT_INT
  | DT_CHAR
  | DT_STR
  deriving DecidableEq, Repr

/-- A scanner token: `code`, `type`, and the members `value.string` and `value.int_` of its
value. -/
structure Scanner.Token where
  code : Scanner.TokenCode
  type : Scanner.DataType
  value_string : String
  value_int_ : Int
  deriving DecidableEq, Repr

/-- A scanner on a loaded file (the class is declared in Scanner.h, outside the sources at
hand, so what it delivers is given): the tokens it will still deliver, each with the line
number that `getLineNmbr()` reports once the token has been delivered, and the current line
number. -/
structure Scanner where
  pending : List (Scanner.Token × Nat)
  lineNmbr : Nat
  deriving DecidableEq, Repr

/-- `Scanner::getNextToken()`: the next token and the advanced scanner. At the end of the file
the scanner delivers `TC_EOF`. -/
def Scanner.getNextToken (self : Scanner) : Scanner.Token × Scanner :=
  match self.pending with
  | [] => (⟨Scanner.TokenCode.TC_EOF, Scanner.DataType.DT_INT, "", 0⟩, self)
  | (token, line) :: rest => (token, ⟨rest, line⟩)

/-- `Scanner::getLineNmbr()`. -/
def Scanner.getLineNmbr (self : Scanner) : Nat :=
  self.lineNmbr

/-- The test `token->code == Scanner::TC_IDENTIFIER && strcmp(token->value.string, s) == 0`. -/
def Scanner.Token.isIdentifier (token : Scanner.Token) (s : String) : Bool :=
  token.code == Scanner.TokenCode.TC_IDENTIFIER && token.value_string == s

/-- The files the parser can read: `Util::getFileLines(filename)` (no lines when the file
cannot be read) and the token stream of a scanner after `loadFile(filename)`, `none` when
loading fails. -/
structure SourceFiles where
  getFileLines : String → List String
  loadFile : String → Option (List (Scanner.Token × Nat))

/-- `Util::intToStr`: the decimal representation. -/
def Util.intToStr (n : Int) : String :=
  toString n

/-- The read `lines[i]` of a vector of strings. The scanner reports line numbers of the file it
scans, so the index is inside the vector; outside it the read yields the empty string here. -/
def vecAt (lines : List String) (i : Int) : String :=
  if i < 0 then "" else lines.getD i.toNat ""

/-- The conversion of the size of a vector (a `size_t`) to the C++ type `int`, 32 bits wide in
two's complement: the size modulo 2^32 read as a signed number. Below 2^31 it is the size
itself; 2^31 becomes -2^31. -/
def intOfSize (n : Nat) : Int :=
  (((n + 2 ^ 31) % 2 ^ 32 : Nat) : Int) - 2 ^ 31

/-- An entry point pragma (`vertShaderBegins`, `fragShaderBegins`): where it was defined and
the line of the combined source at which it stands; -1 means not defined. -/
structure CodeBeginningPragma where
  definedInFile : String
  definedInLine : Int
  globalLine : Int
  deriving DecidableEq, Repr

/-- An attribute pragma, `ShaderVarPragma(definedInFile, definedInLine, name, customLoc)`. -/
structure ShaderVarPragma where
  definedInFile : String
  definedInLine : Int
  name : String
  customLoc : Int
  deriving DecidableEq, Repr

/-- The member `output` of the parser. -/
structure ShaderParser.Output where
  attributes : List ShaderVarPragma
  vertShaderSource : String
  fragShaderSource : String
  deriving DecidableEq, Repr

/-- The members of `ShaderParser`. A value of the C++ type `int` is an integer here. Where the
code assigns the size of a vector to an `int` the size is narrowed by `intOfSize`; sums and
differences of `int` values are exact, they leave the range of `int` only by a signed overflow,
which C++ leaves undefined. -/
structure ShaderParser where
  vertShaderBegins : CodeBeginningPragma
  fragShaderBegins : CodeBeginningPragma
  sourceLines : List String
  output : ShaderParser.Output
  deriving DecidableEq, Repr

/-- A parser on which nothing has been parsed yet: no entry point defined (-1), no source line,
no attribute. -/
def ShaderParser.fresh : ShaderParser :=
  ⟨⟨"", -1, -1⟩, ⟨"", -1, -1⟩, [], ⟨[], "", ""⟩⟩

/-- `ShaderParser::findShaderVar(vec, name)`: the loop `while(it != vec.end() && it->name !=
name) ++it;`. The result `none` is `vec.end()`. -/
def ShaderParser.findShaderVar : List ShaderVarPragma → String → Option ShaderVarPragma
  | [], _ => none
  | it :: rest, name => if it.name ≠ name then ShaderParser.findShaderVar rest name else some it

/-- The loop `for(attrib = begin; attrib != end; ++attrib) if(attrib->customLoc == loc)` of the
attribute pragma: true when the loop finds an attribute with the location. -/
def ShaderParser.sharesLocation : List ShaderVarPragma → Int → Bool
  | [], _ => false
  | attrib :: rest, loc =>
    if attrib.customLoc = loc then true else ShaderParser.sharesLocation rest loc

/-- Where control goes after a piece of the loop body of `parseFileForPragmas`: on to the next
statement with the scanner and parser as they are now, or out of the function with a result
(`return false`, or `break` followed by `return true`). -/
inductive ParseFlow where
  | next (scanner : Scanner) (self : ShaderParser)
  | ret (result : Bool) (self : ShaderParser)
  deriving DecidableEq, Repr

/-- The branch `vertShaderBegins` of the loop body. -/
def ShaderParser.pragmaVertShaderBegins (self : ShaderParser) (filename : String) (depth : Nat)
    (lines : List String) (scanner : Scanner) : ParseFlow :=
  if self.vertShaderBegins.definedInLine = scanner.getLineNmbr
      ∧ self.vertShaderBegins.definedInFile = filename then
    ParseFlow.ret false self
  else if self.vertShaderBegins.definedInLine ≠ -1 then ParseFlow.ret false self
  else if self.fragShaderBegins.definedInLine ≠ -1 then ParseFlow.ret false self
  else
    ParseFlow.next scanner
      { self with
        vertShaderBegins :=
          ⟨filename, scanner.getLineNmbr, intOfSize (self.sourceLines.length + 1)⟩
        sourceLines := self.sourceLines ++
          ["#line " ++ Util.intToStr scanner.getLineNmbr ++ " " ++ Util.intToStr depth ++ " // "
            ++ vecAt lines (scanner.getLineNmbr - 1)] }

/-- The branch `fragShaderBegins` of the loop body. -/
def ShaderParser.pragmaFragShaderBegins (self : ShaderParser) (filename : String) (depth : Nat)
    (lines : List String) (scanner : Scanner) : ParseFlow :=
  if self.fragShaderBegins.definedInLine = scanner.getLineNmbr
      ∧ self.fragShaderBegins.definedInFile = filename then
    ParseFlow.ret false self
  else if self.fragShaderBegins.definedInLine ≠ -1 then ParseFlow.ret false self
  else if self.vertShaderBegins.definedInLine = -1 then ParseFlow.ret false self
  else
    ParseFlow.next scanner
      { self with
        fragShaderBegins :=
          ⟨filename, scanner.getLineNmbr, intOfSize (self.sourceLines.length + 1)⟩
        sourceLines := self.sourceLines ++
          ["#line " ++ Util.intToStr scanner.getLineNmbr ++ " " ++ Util.intToStr depth ++ " // "
            ++ vecAt lines (scanner.getLineNmbr - 1)] }

/-- The branch of the pragma that pulls in another file. The recursive call
`parseFileForPragmas(token->value.string, depth+1)` is the argument `recur`; it yields `none`
when it does not come to an end. -/
def ShaderParser.pragmaIncludeFile
    (recur : String → Nat → ShaderParser → Option (Bool × ShaderParser))
    (self : ShaderParser) (depth : Nat) (lines : List String) (scanner : Scanner) :
    Option ParseFlow :=
  let t := scanner.getNextToken
  if t.1.code = Scanner.TokenCode.TC_STRING then
    match recur t.1.value_string (depth + 1)
        { self with
          sourceLines := self.sourceLines ++
            ["#line 0 " ++ Util.intToStr (depth + 1) ++ " // "
              ++ vecAt lines (t.2.getLineNmbr - 1)] } with
    | none => none
    | some (false, self2) => some (ParseFlow.ret false self2)
    | some (true, self2) =>
      some (ParseFlow.next t.2
        { self2 with
          sourceLines := self2.sourceLines ++
            ["#line " ++ Util.intToStr t.2.getLineNmbr ++ " " ++ Util.intToStr depth
              ++ " // end of " ++ vecAt lines (t.2.getLineNmbr - 1)] })
  else some (ParseFlow.ret false self)

/-- The branch `attribute` of the loop body. -/
def ShaderParser.pragmaAttribute (self : ShaderParser) (filename : String)
    (lines : List String) (scanner : Scanner) : ParseFlow :=
  let t1 := scanner.getNextToken
  if t1.1.code = Scanner.TokenCode.TC_IDENTIFIER then
    let varName := t1.1.value_string
    let t2 := t1.2.getNextToken
    if t2.1.code = Scanner.TokenCode.TC_NUMBER ∧ t2.1.type = Scanner.DataType.DT_INT then
      let loc := t2.1.value_int_
      match ShaderParser.findShaderVar self.output.attributes varName with
      | some _ => ParseFlow.ret false self
      | none =>
        if ShaderParser.sharesLocation self.output.attributes loc then ParseFlow.ret false self
        else
          ParseFlow.next t2.2
            { self with
              output := { self.output with
                attributes := self.output.attributes ++
                  [⟨filename, t2.2.getLineNmbr, varName, loc⟩] }
              sourceLines := self.sourceLines ++ [vecAt lines (t2.2.getLineNmbr - 1)] }
    else ParseFlow.ret false self
  else ParseFlow.ret false self

/-- The body of `if(... "anki" ...) { ... }`: fetch the next token and take the branch it
names; any other token is ignored with a warning. -/
def ShaderParser.pragmaAnki
    (recur : String → Nat → ShaderParser → Option (Bool × ShaderParser))
    (self : ShaderParser) (filename : String) (depth : Nat) (lines : List String)
    (scanner : Scanner) : Option ParseFlow :=
  let t := scanner.getNextToken
  if t.1.isIdentifier "vertShaderBegins" then
    some (self.pragmaVertShaderBegins filename depth lines t.2)
  else if t.1.isIdentifier "fragShaderBegins" then
    some (self.pragmaFragShaderBegins filename depth lines t.2)
  else if t.1.isIdentifier "include" then self.pragmaIncludeFile recur depth lines t.2
  else if t.1.isIdentifier "attribute" then some (self.pragmaAttribute filename lines t.2)
  else some (ParseFlow.next t.2 self)

/-- One pass through the body of the loop `do { ... } while(true)` of `parseFileForPragmas`.
`ParseFlow.next` means that the loop goes round again. -/
def ShaderParser.parseIteration
    (recur : String → Nat → ShaderParser → Option (Bool × ShaderParser))
    (self : ShaderParser) (filename : String) (depth : Nat) (lines : List String)
    (scanner : Scanner) : Option ParseFlow :=
  let t := scanner.getNextToken
  if t.1.code = Scanner.TokenCode.TC_SHARP then
    let t1 := t.2.getNextToken
    if t1.1.isIdentifier "pragma" then
      let t2 := t1.2.getNextToken
      match (if t2.1.isIdentifier "anki" then self.pragmaAnki recur filename depth lines t2.2
             else some (ParseFlow.next t2.2 self)) with
      | none => none
      | some (ParseFlow.ret result self2) => some (ParseFlow.ret result self2)
      | some (ParseFlow.next scanner2 self2) =>
        let t3 := scanner2.getNextToken
        if t3.1.code ≠ Scanner.TokenCode.TC_NEWLINE ∧ t3.1.code ≠ Scanner.TokenCode.TC_EOF then
          some (ParseFlow.ret false self2)
        else if t3.1.code = Scanner.TokenCode.TC_EOF then some (ParseFlow.ret true self2)
        else some (ParseFlow.next t3.2 self2)
    else some (ParseFlow.next t1.2 self)
  else if t.1.code = Scanner.TokenCode.TC_NEWLINE then
    some (ParseFlow.next t.2
      { self with sourceLines := self.sourceLines ++ [vecAt lines (t.2.getLineNmbr - 2)] })
  else if t.1.code = Scanner.TokenCode.TC_EOF then
    some (ParseFlow.ret true
      { self with sourceLines := self.sourceLines ++ [vecAt lines (t.2.getLineNmbr - 1)] })
  else if t.1.code = Scanner.TokenCode.TC_ERROR then some (ParseFlow.ret false self)
  else some (ParseFlow.next t.2 self)

/-- The loop `do { ... } while(true)` of `parseFileForPragmas` followed by `return true`, with a
bound on the number of passes: `none` when the bound is used up before the loop is left. -/
def ShaderParser.parseLoop
    (recur : String → Nat → ShaderParser → Option (Bool × ShaderParser))
    (filename : String) (depth : Nat) (lines : List String) :
    Nat → Scanner → ShaderParser → Option (Bool × ShaderParser)
  | 0, _, _ => none
  | fuel + 1, scanner, self =>
    match self.parseIteration recur filename depth lines scanner with
    | none => none
    | some (ParseFlow.ret result self2) => some (result, self2)
    | some (ParseFlow.next scanner2 self2) =>
      ShaderParser.parseLoop recur filename depth lines fuel scanner2 self2

/-- `ShaderParser::parseFileForPragmas(filename, depth)` with a bound on the nesting of the
recursive calls: `none` when the bound is used up. Returns the result and the parser. The loop
gets one pass more than the scanner has tokens. -/
def ShaderParser.parseFileForPragmasBounded (files : SourceFiles) :
    Nat → String → Nat → ShaderParser → Option (Bool × ShaderParser)
  | 0, _, _, _ => none
  | bound + 1, filename, depth, self =>
    if depth > 99 then some (false, self)
    else if (files.getFileLines filename).length < 1 then some (false, self)
    else
      match files.loadFile filename with
      | none => some (false, self)
      | some tokens =>
        ShaderParser.parseLoop (ShaderParser.parseFileForPragmasBounded files bound) filename
          depth (files.getFileLines filename) (tokens.length + 1) ⟨tokens, 1⟩ self

/-- `ShaderParser::parseFileForPragmas(filename, depth)`. A call at depth 100 or more fails at
once and a call at a lower depth only calls itself at the next depth, so 101 - depth nested
calls are all there can be. -/
def ShaderParser.parseFileForPragmas (files : SourceFiles) (self : ShaderParser)
    (filename : String) (depth : Nat) : Option (Bool × ShaderParser) :=
  ShaderParser.parseFileForPragmasBounded files (100 - depth + 1) filename depth self

/-- The loops `for(int i = first; i < last; ++i) { source += sourceLines[i] + "\n"; }` of
`parseFile`, entered at index `i` with `remaining = last - i` passes to go. -/
def ShaderParser.appendSourceLines (sourceLines : List String) :
    (remaining : Nat) → (i : Int) → String → String
  | 0, _, source => source
  | remaining + 1, i, source =>
    ShaderParser.appendSourceLines sourceLines remaining (i + 1)
      (source ++ (vecAt sourceLines i ++ "\n"))

/-- `ShaderParser::parseFile(filename)`; returns the result and the parser, `none` when the
parse of the master file does not come to an end. The first of the three loops appends the
same lines to both sources; the bound of the third is `int(sourceLines.size())`. -/
def ShaderParser.parseFile (files : SourceFiles) (self : ShaderParser) (filename : String) :
    Option (Bool × ShaderParser) :=
  match self.parseFileForPragmas files filename 0 with
  | none => none
  | some (false, self) => some (false, self)
  | some (true, self) =>
    if self.vertShaderBegins.globalLine = -1 then some (false, self)
    else if self.fragShaderBegins.globalLine = -1 then some (false, self)
    else
      let vertShaderSource := ""
      let fragShaderSource := ""
      let vertShaderSource := ShaderParser.appendSourceLines self.sourceLines
        (self.vertShaderBegins.globalLine - 1 - 0).toNat 0 vertShaderSource
      let fragShaderSource := ShaderParser.appendSourceLines self.sourceLines
        (self.vertShaderBegins.globalLine - 1 - 0).toNat 0 fragShaderSource
      let vertShaderSource := ShaderParser.appendSourceLines self.sourceLines
        (self.fragShaderBegins.globalLine - 1 - (self.vertShaderBegins.globalLine - 1)).toNat
        (self.vertShaderBegins.globalLine - 1) vertShaderSource
      let fragShaderSource := ShaderParser.appendSourceLines self.sourceLines
        (intOfSize self.sourceLines.length - (self.fragShaderBegins.globalLine - 1)).toNat
        (self.fragShaderBegins.globalLine - 1) fragShaderSource
      some (true, { self with
        output := { self.output with
          vertShaderSource := vertShaderSource
          fragShaderSource := fragShaderSource } })

/-- The concatenation of the given lines, each followed by a newline. -/
def concatLines : List String → String
  | [] => ""
  | line :: rest => line ++ "\n" ++ concatLines rest

/-- An identifier token. -/
def identifierToken (s : String) : Scanner.Token :=
  ⟨Scanner.TokenCode.TC_IDENTIFIER, Scanner.DataType.DT_STR, s, 0⟩

/-- An integer number token. -/
def intToken (n : Int) : Scanner.Token :=
  ⟨Scanner.TokenCode.TC_NUMBER, Scanner.DataType.DT_INT, "", n⟩

/-- A token that carries only its code. -/
def plainToken (code : Scanner.TokenCode) : Scanner.Token :=
  ⟨code, Scanner.DataType.DT_CHAR, "", 0⟩

/-- The lines of the example shader file. -/
def exampleShaderLines : List String :=
  ["#pragma anki attribute position 0",
   "#pragma anki vertShaderBegins",
   "void main() \x7b\x7d",
   "#pragma anki fragShaderBegins",
   "void main() \x7b\x7d"]

/-- The tokens a scanner delivers for `exampleShaderLines`, each with the line number reported
after it; the code of the two functions is left out, the parser skips such tokens. -/
def exampleShaderTokens : List (Scanner.Token × Nat) :=
  [(plainToken Scanner.TokenCode.TC_SHARP, 1), (identifierToken "pragma", 1),
   (identifierToken "anki", 1), (identifierToken "attribute", 1),
   (identifierToken "position", 1), (intToken 0, 1),
   (plainToken Scanner.TokenCode.TC_NEWLINE, 2),
   (plainToken Scanner.TokenCode.TC_SHARP, 2), (identifierToken "pragma", 2),
   (identifierToken "anki", 2), (identifierToken "vertShaderBegins", 2),
   (plainToken Scanner.TokenCode.TC_NEWLINE, 3),
   (identifierToken "void", 3), (identifierToken "main", 3),
   (plainToken Scanner.TokenCode.TC_NEWLINE, 4),
   (plainToken Scanner.TokenCode.TC_SHARP, 4), (identifierToken "pragma", 4),
   (identifierToken "anki", 4), (identifierToken "fragShaderBegins", 4),
   (plainToken Scanner.TokenCode.TC_NEWLINE, 5),
   (identifierToken "void", 5), (identifierToken "main", 5),
   (plainToken Scanner.TokenCode.TC_EOF, 5)]

/-- A file store that holds the example shader under the name main.glsl and nothing else. -/
def exampleShaderFiles : SourceFiles :=
  ⟨fun filename => if filename = "main.glsl" then exampleShaderLines else [],
   fun filename => if filename = "main.glsl" then some exampleShaderTokens else none⟩

/-- The parser a piece of the loop body leaves behind, on either way out. -/
def ParseFlow.parser : ParseFlow → ShaderParser
  | ParseFlow.next _ self => self
  | ParseFlow.ret _ self => self

/-- The entry points of a parser are in range: each of them is either not defined, with -1 in
both line fields, or defined with its global line inside the source lines, and the fragment
entry point is defined only behind a defined vertex entry point. -/
def ShaderParser.entryPointsInRange (self : ShaderParser) : Prop :=
  ((self.vertShaderBegins.definedInLine = -1 ∧ self.vertShaderBegins.globalLine = -1) ∨
    (self.vertShaderBegins.definedInLine ≠ -1 ∧ 1 ≤ self.vertShaderBegins.globalLine ∧
      self.vertShaderBegins.globalLine ≤ self.sourceLines.length)) ∧
  ((self.fragShaderBegins.definedInLine = -1 ∧ self.fragShaderBegins.globalLine = -1) ∨
    (self.fragShaderBegins.definedInLine ≠ -1 ∧ self.vertShaderBegins.definedInLine ≠ -1 ∧
      self.vertShaderBegins.globalLine < self.fragShaderBegins.globalLine ∧
      self.fragShaderBegins.globalLine ≤ self.sourceLines.length))

/-- The recorded attributes have pairwise distinct names and pairwise distinct locations. -/
def ShaderParser.attributesDistinct (self : ShaderParser) : Prop :=
  (self.output.attributes.map (fun a => a.name)).Nodup ∧
  (self.output.attributes.map (fun a => a.customLoc)).Nodup

/-! ### A shader that includes a file many times -/

/-- A string token. -/
def stringToken (s : String) : Scanner.Token :=
  ⟨Scanner.TokenCode.TC_STRING, Scanner.DataType.DT_STR, s, 0⟩

/-- The lines of an included file: `k + 1` empty lines. -/
def includedLines (k : Nat) : List String :=
  List.replicate (k + 1) ""

/-- The tokens a scanner delivers for `includedLines k`: the `k` line ends, each with the line
number reported after it (2, 3, ...). -/
def includedTokens (k : Nat) : List (Scanner.Token × Nat) :=
  (List.range' 2 k).map (fun ln => (plainToken Scanner.TokenCode.TC_NEWLINE, ln))

/-- The text of a line that includes the file inc.glsl. -/
def includeLine : String :=
  "#pragma anki include \"inc.glsl\""

/-- The tokens of `n` lines, the first with line number `first`, that each include the file
inc.glsl. -/
def includeTokens : (first n : Nat) → List (Scanner.Token × Nat)
  | _, 0 => []
  | first, n + 1 =>
    [(plainToken Scanner.TokenCode.TC_SHARP, first), (identifierToken "pragma", first),
     (identifierToken "anki", first), (identifierToken "include", first),
     (stringToken "inc.glsl", first), (plainToken Scanner.TokenCode.TC_NEWLINE, first + 1)]
      ++ includeTokens (first + 1) n

/-- The lines of a shader file with both entry points at its top, then `n` lines that include
the file inc.glsl, then an empty last line. -/
def includingLines (n : Nat) : List String :=
  ["#pragma anki vertShaderBegins", "#pragma anki fragShaderBegins"]
    ++ List.replicate n includeLine ++ [""]

/-- The tokens a scanner delivers for `includingLines n`. -/
def includingTokens (n : Nat) : List (Scanner.Token × Nat) :=
  [(plainToken Scanner.TokenCode.TC_SHARP, 1), (identifierToken "pragma", 1),
   (identifierToken "anki", 1), (identifierToken "vertShaderBegins", 1),
   (plainToken Scanner.TokenCode.TC_NEWLINE, 2),
   (plainToken Scanner.TokenCode.TC_SHARP, 2), (identifierToken "pragma", 2),
   (identifierToken "anki", 2), (identifierToken "fragShaderBegins", 2),
   (plainToken Scanner.TokenCode.TC_NEWLINE, 3)]
    ++ includeTokens 3 n

/-- A file store that holds the shader of `includingLines n` under the name main.glsl, the file
of `includedLines k` under the name inc.glsl, and nothing else. -/
def includingFiles (n k : Nat) : SourceFiles :=
  ⟨fun filename =>
      if filename = "main.glsl" then includingLines n
      else if filename = "inc.glsl" then includedLines k else [],
   fun filename =>
      if filename = "main.glsl" then some (includingTokens n)
      else if filename = "inc.glsl" then some (includedTokens k) else none⟩

/-! ### The test Gr, DrawOffscreen (tests/gr/Gr.cpp) -/

namespace tests

/-- Usage modes of a texture named in tests/gr/Gr.cpp. -/
inductive TextureUsageBit where
  | NONE
  | FRAGMENT_SHADER_SAMPLED
  | FRAMEBUFFER_ATTACHMENT_WRITE
  | FRAMEBUFFER_ATTACHMENT_READ_WRITE
  | GENERATE_MIPMAPS
  | UPLOAD
  deriving DecidableEq, Repr

/-- A texture object, identified by a number. -/
abbrev TexturePtr := Nat

/-- Modelled from the spec: the access modes that only read (section 3). Of the usage modes of
the test, sampling in the fragment shader is the read-only one; writing an attachment, reading
and writing an attachment, generating mipmaps and uploading all write. The barrier synthesis of
the render graph is not among the sources. -/
def TextureUsageBit.isReadOnly : TextureUsageBit → Bool
  | TextureUsageBit.FRAGMENT_SHADER_SAMPLED => true
  | _ => false

/-- Modelled from the spec: whether the step from the tracked access mode to the required one
needs a barrier (sections 3 and 4.4). A step from or to "none" never needs one, a step from a
read-only mode to the same mode needs none, every other step needs one. -/
def needsBarrier (fromMode toMode : TextureUsageBit) : Bool :=
  if fromMode = TextureUsageBit.NONE ∨ toMode = TextureUsageBit.NONE then false
  else if fromMode = toMode ∧ toMode.isReadOnly = true then false
  else true

/-- Modelled from the spec: a transition barrier (resource, fromMode, toMode) of section 4.4. -/
structure Barrier where
  resource : TexturePtr
  fromMode : TextureUsageBit
  toMode : TextureUsageBit
  deriving DecidableEq, Repr

/-- Modelled from the spec: the pass descriptor of section 3, as far as the barrier synthesis
reads it: the name and the ordered lists of consumer and producer entries, each a handle with
an access mode. -/
structure PassDescriptor where
  name : String
  consumers : List (TexturePtr × TextureUsageBit)
  producers : List (TexturePtr × TextureUsageBit)
  deriving DecidableEq, Repr

/-- Modelled from the spec: the access mode under which an entry list names the handle, `none`
when it does not name it. -/
def accessModeIn (handle : TexturePtr) :
    List (TexturePtr × TextureUsageBit) → Option TextureUsageBit
  | [] => none
  | entry :: rest => if entry.1 = handle then some entry.2 else accessModeIn handle rest

/-- Modelled from the spec: the mode a pass requires for a handle, `none` when the pass does not
access it. A pass that names the handle as consumer and as producer requires the mode of the
producer entry (section 8, last scenario). -/
def PassDescriptor.requiredMode (pass : PassDescriptor) (handle : TexturePtr) :
    Option TextureUsageBit :=
  match accessModeIn handle pass.producers with
  | some mode => some mode
  | none => accessModeIn handle pass.consumers

/-- Modelled from the spec: the walk of the Barrier Synthesizer over the ordered passes for one
resource handle (section 4.4), entered with the tracked access mode of the handle. The result
has one list for each pass, the barriers for the handle that go right before the first command
of the pass. At each pass that accesses the handle the tracked mode becomes the mode the pass
requires. -/
def synthesizeBarriers (handle : TexturePtr) :
    TextureUsageBit → List PassDescriptor → List (List Barrier)
  | _, [] => []
  | tracked, pass :: rest =>
    match pass.requiredMode handle with
    | none => [] :: synthesizeBarriers handle tracked rest
    | some mode =>
      (if needsBarrier tracked mode then [⟨handle, tracked, mode⟩] else [])
        :: synthesizeBarriers handle mode rest

end tests

/-! ## Theorems -/

/-! ### CommandBufferImpl::executeAllCommands -/

theorem executeLoop_isErr {GlState : Type} (cmds : List (GlCommand GlState)) (err : Error)
    (state : GlState) (invoked : List (GlCommand GlState)) (h : err.isErr = true) :
    executeLoop cmds err state invoked = ⟨err, state, invoked⟩ := by
  cases cmds <;> simp [executeLoop, h]

theorem executeLoop_all_ok {GlState : Type} (cmds : List (GlCommand GlState)) :
    ∀ (state : GlState) (invoked : List (GlCommand GlState)),
      (∀ k (hk : k < cmds.length),
        ((cmds.get ⟨k, hk⟩).call (stateAfter (cmds.take k) state)).1 = ErrorCode.NONE) →
      executeLoop cmds ErrorCode.NONE state invoked
        = ⟨ErrorCode.NONE, stateAfter cmds state, invoked ++ cmds⟩ := by
  induction cmds with
  | nil => intro state invoked _; simp [executeLoop, stateAfter]
  | cons c rest ih =>
    intro state invoked h
    have h0 : (c.call state).1 = ErrorCode.NONE := by
      have := h 0 (by simp)
      simpa [stateAfter] using this
    have hrest : ∀ k (hk : k < rest.length),
        ((rest.get ⟨k, hk⟩).call (stateAfter (rest.take k) (c.call state).2)).1
          = ErrorCode.NONE := by
      intro k hk
      have := h (k + 1) (by simp; omega)
      simpa [stateAfter] using this
    have := ih (c.call state).2 (invoked ++ [c]) hrest
    simp [executeLoop, Error.isErr, h0, this, stateAfter]

theorem executeLoop_first_error {GlState : Type} (cmds : List (GlCommand GlState)) :
    ∀ (state : GlState) (invoked : List (GlCommand GlState)) (k : Nat) (hk : k < cmds.length),
      (∀ j (hj : j < k),
        ((cmds.get ⟨j, Nat.lt_trans hj hk⟩).call (stateAfter (cmds.take j) state)).1
          = ErrorCode.NONE) →
      ((cmds.get ⟨k, hk⟩).call (stateAfter (cmds.take k) state)).1 ≠ ErrorCode.NONE →
      executeLoop cmds ErrorCode.NONE state invoked
        = ⟨((cmds.get ⟨k, hk⟩).call (stateAfter (cmds.take k) state)).1,
           stateAfter (cmds.take (k + 1)) state, invoked ++ cmds.take (k + 1)⟩ := by
  induction cmds with
  | nil => intro _ _ k hk; simp at hk
  | cons c rest ih =>
    intro state invoked k hk hok herr
    cases k with
    | zero =>
      have he : (c.call state).1.isErr = true := by
        simpa [Error.isErr, stateAfter] using herr
      simp [executeLoop, Error.isErr, executeLoop_isErr _ _ _ _ he, stateAfter]
    | succ k =>
      have hk2 : k < rest.length := by simpa using hk
      have h0 : (c.call state).1 = ErrorCode.NONE := by
        have := hok 0 (by omega)
        simpa [stateAfter] using this
      have hok2 : ∀ j (hj : j < k),
          ((rest.get ⟨j, Nat.lt_trans hj hk2⟩).call
            (stateAfter (rest.take j) (c.call state).2)).1 = ErrorCode.NONE := by
        intro j hj
        have := hok (j + 1) (by omega)
        simpa [stateAfter] using this
      have herr2 : ((rest.get ⟨k, hk2⟩).call
          (stateAfter (rest.take k) (c.call state).2)).1 ≠ ErrorCode.NONE := by
        simpa [stateAfter] using herr
      have := ih (c.call state).2 (invoked ++ [c]) k hk2 hok2 herr2
      simp [executeLoop, Error.isErr, h0, this, stateAfter]

/-- C1: when the chain of a command buffer holds the commands c1..cn, n >= 1, and each of them
returns no error at the state at which it is invoked, `executeAllCommands` invokes exactly
c1, ..., cn, each once and in list order, and returns `ErrorCode::NONE`. -/
theorem executeAllCommands_all_succeed {GlState : Type} (cb : CommandBufferImpl GlState)
    (state : GlState) (hne : cb.m_commands ≠ [])
    (hok : ∀ k (hk : k < cb.m_commands.length),
      ((cb.m_commands.get ⟨k, hk⟩).call (stateAfter (cb.m_commands.take k) state)).1
        = ErrorCode.NONE) :
    cb.executeAllCommands state
      = some ⟨ErrorCode.NONE, stateAfter cb.m_commands state, cb.m_commands⟩ := by
  have h := executeLoop_all_ok cb.m_commands state [] hok
  simp [CommandBufferImpl.executeAllCommands, hne, h]

/-- Witness for C1: two commands on a counter state, both returning `NONE`. -/
theorem executeAllCommands_all_succeed_witness :
    (CommandBufferImpl.mk [GlCommand.mk (fun s : Nat => (ErrorCode.NONE, s + 1)),
        GlCommand.mk (fun s : Nat => (ErrorCode.NONE, 2 * s))]).executeAllCommands 0
      = some ⟨ErrorCode.NONE, 2,
          [GlCommand.mk (fun s : Nat => (ErrorCode.NONE, s + 1)),
           GlCommand.mk (fun s : Nat => (ErrorCode.NONE, 2 * s))]⟩ :=
  executeAllCommands_all_succeed
    (CommandBufferImpl.mk [GlCommand.mk (fun s : Nat => (ErrorCode.NONE, s + 1)),
        GlCommand.mk (fun s : Nat => (ErrorCode.NONE, 2 * s))]) 0
    (by simp)
    (by
      intro k hk
      have hk2 : k < 2 := by simpa using hk
      interval_cases k <;> rfl)

/-- C2: when the command at position k (counting from 0) is the first one of the chain that
returns an error, `executeAllCommands` invokes exactly the commands up to and including it, in
list order, invokes none of the later ones, and returns the error of that command. -/
theorem executeAllCommands_first_error {GlState : Type} (cb : CommandBufferImpl GlState)
    (state : GlState) (k : Nat) (hk : k < cb.m_commands.length)
    (hok : ∀ j (hj : j < k),
      ((cb.m_commands.get ⟨j, Nat.lt_trans hj hk⟩).call
        (stateAfter (cb.m_commands.take j) state)).1 = ErrorCode.NONE)
    (herr : ((cb.m_commands.get ⟨k, hk⟩).call
        (stateAfter (cb.m_commands.take k) state)).1 ≠ ErrorCode.NONE) :
    cb.executeAllCommands state
      = some ⟨((cb.m_commands.get ⟨k, hk⟩).call (stateAfter (cb.m_commands.take k) state)).1,
          stateAfter (cb.m_commands.take (k + 1)) state, cb.m_commands.take (k + 1)⟩ := by
  have hne : cb.m_commands ≠ [] := by
    intro h
    rw [h] at hk
    simp at hk
  have h := executeLoop_first_error cb.m_commands state [] k hk hok herr
  simp [CommandBufferImpl.executeAllCommands, hne, h]

/-- Witness for C2: the second of three commands fails with `USER_DATA`; the third one, which
would fail with `UNKNOWN`, is never invoked. -/
theorem executeAllCommands_first_error_witness :
    (CommandBufferImpl.mk [GlCommand.mk (fun s : Nat => (ErrorCode.NONE, s + 1)),
        GlCommand.mk (fun s : Nat => (ErrorCode.USER_DATA, 2 * s)),
        GlCommand.mk (fun s : Nat => (ErrorCode.UNKNOWN, s + 5))]).executeAllCommands 0
      = some ⟨ErrorCode.USER_DATA, 2,
          [GlCommand.mk (fun s : Nat => (ErrorCode.NONE, s + 1)),
           GlCommand.mk (fun s : Nat => (ErrorCode.USER_DATA, 2 * s))]⟩ :=
  executeAllCommands_first_error
    (CommandBufferImpl.mk [GlCommand.mk (fun s : Nat => (ErrorCode.NONE, s + 1)),
        GlCommand.mk (fun s : Nat => (ErrorCode.USER_DATA, 2 * s)),
        GlCommand.mk (fun s : Nat => (ErrorCode.UNKNOWN, s + 5))]) 0 1
    (by simp)
    (by
      intro j hj
      have hj0 : j = 0 := by omega
      subst hj0
      rfl)
    (by simp [stateAfter])

/-! ### Ssao::populateRenderGraph -/

theorem Ssao.importedRts_render (self : Ssao) (rgraph : RenderGraphDescription) :
    (self.importedRts rgraph).get (self.m_r.frameCount &&& 1)
      = ⟨rgraph.m_renderTargets.length⟩ := by
  rcases Nat.mod_two_eq_zero_or_one self.m_r.frameCount with h | h <;>
    simp [Ssao.importedRts, Ssao.populateRenderGraph, Nat.and_one_is_mod, h, Array2.get,
      Array2.set, RenderGraphDescription.importRenderTarget]

theorem Ssao.importedRts_read (self : Ssao) (rgraph : RenderGraphDescription) :
    (self.importedRts rgraph).get (if self.m_r.frameCount &&& 1 = 0 then 1 else 0)
      = ⟨rgraph.m_renderTargets.length + 1⟩ := by
  rcases Nat.mod_two_eq_zero_or_one self.m_r.frameCount with h | h <;>
    simp [Ssao.importedRts, Ssao.populateRenderGraph, Nat.and_one_is_mod, h, Array2.get,
      Array2.set, RenderGraphDescription.importRenderTarget]

theorem Ssao.registeredPasses_eq (self : Ssao) (rgraph : RenderGraphDescription) :
    self.registeredPasses rgraph =
      [ ⟨"SSAO main", some RenderPassWorkCallback.runMainCallback, some self.m_fbDescr,
          [⟨rgraph.m_renderTargets.length⟩], none,
          [⟨self.m_r.gbufferColorRt2, TextureUsageBit.SAMPLED_FRAGMENT⟩,
           ⟨⟨rgraph.m_renderTargets.length⟩, TextureUsageBit.FRAMEBUFFER_ATTACHMENT_WRITE⟩,
           ⟨⟨rgraph.m_renderTargets.length + 1⟩, TextureUsageBit.SAMPLED_FRAGMENT⟩,
           ⟨self.m_r.quarterColorRt, TextureUsageBit.SAMPLED_FRAGMENT⟩],
          [⟨⟨rgraph.m_renderTargets.length⟩, TextureUsageBit.FRAMEBUFFER_ATTACHMENT_WRITE⟩]⟩,
        ⟨"SSAO hblur", some RenderPassWorkCallback.runHBlurCallback, some self.m_fbDescr,
          [⟨rgraph.m_renderTargets.length + 1⟩], none,
          [⟨⟨rgraph.m_renderTargets.length + 1⟩, TextureUsageBit.FRAMEBUFFER_ATTACHMENT_WRITE⟩,
           ⟨⟨rgraph.m_renderTargets.length⟩, TextureUsageBit.SAMPLED_FRAGMENT⟩,
           ⟨self.m_r.quarterColorRt, TextureUsageBit.SAMPLED_FRAGMENT⟩],
          [⟨⟨rgraph.m_renderTargets.length + 1⟩, TextureUsageBit.FRAMEBUFFER_ATTACHMENT_WRITE⟩]⟩,
        ⟨"SSAO vblur", some RenderPassWorkCallback.runVBlurCallback, some self.m_fbDescr,
          [⟨rgraph.m_renderTargets.length⟩], none,
          [⟨⟨rgraph.m_renderTargets.length⟩, TextureUsageBit.FRAMEBUFFER_ATTACHMENT_WRITE⟩,
           ⟨⟨rgraph.m_renderTargets.length + 1⟩, TextureUsageBit.SAMPLED_FRAGMENT⟩,
           ⟨self.m_r.quarterColorRt, TextureUsageBit.SAMPLED_FRAGMENT⟩],
          [⟨⟨rgraph.m_renderTargets.length⟩, TextureUsageBit.FRAMEBUFFER_ATTACHMENT_WRITE⟩]⟩ ] := by
  rcases Nat.mod_two_eq_zero_or_one self.m_r.frameCount with h | h <;>
    simp [Ssao.registeredPasses, Ssao.populateRenderGraph, Nat.and_one_is_mod, h, Array2.get,
      Array2.set, RenderGraphDescription.importRenderTarget,
      RenderGraphDescription.newGraphicsRenderPass, GraphicsRenderPassDescription.setWork,
      GraphicsRenderPassDescription.setFramebufferInfo,
      GraphicsRenderPassDescription.newConsumer, GraphicsRenderPassDescription.newProducer]

theorem Ssao.importedRts_eq (self : Ssao) (rgraph : RenderGraphDescription) :
    self.importedRts rgraph
      = if self.m_r.frameCount % 2 = 0
        then ⟨⟨rgraph.m_renderTargets.length⟩, ⟨rgraph.m_renderTargets.length + 1⟩⟩
        else ⟨⟨rgraph.m_renderTargets.length + 1⟩, ⟨rgraph.m_renderTargets.length⟩⟩ := by
  rcases Nat.mod_two_eq_zero_or_one self.m_r.frameCount with h | h <;>
    simp [Ssao.importedRts, Ssao.populateRenderGraph, Nat.and_one_is_mod, h, Array2.set,
      RenderGraphDescription.importRenderTarget]

theorem Ssao.distinct_handles (self : Ssao) (rgraph : RenderGraphDescription)
    (hd : [(self.importedRts rgraph).get 0, (self.importedRts rgraph).get 1,
      self.m_r.gbufferColorRt2, self.m_r.quarterColorRt].Nodup) :
    self.m_r.gbufferColorRt2 ≠ ⟨rgraph.m_renderTargets.length⟩ ∧
    self.m_r.gbufferColorRt2 ≠ ⟨rgraph.m_renderTargets.length + 1⟩ ∧
    self.m_r.quarterColorRt ≠ ⟨rgraph.m_renderTargets.length⟩ ∧
    self.m_r.quarterColorRt ≠ ⟨rgraph.m_renderTargets.length + 1⟩ := by
  rw [Ssao.importedRts_eq] at hd
  rcases Nat.mod_two_eq_zero_or_one self.m_r.frameCount with h | h
  · simp [h, Array2.get] at hd
    refine ⟨?_, ?_, ?_, ?_⟩ <;> intro hc <;> simp [hc] at hd
  · simp [h, Array2.get] at hd
    refine ⟨?_, ?_, ?_, ?_⟩ <;> intro hc <;> simp [hc] at hd

/-- C3: for every frame count, the passes registered by `Ssao::populateRenderGraph` are SSAO
main, SSAO hblur and SSAO vblur, and each of them has exactly one colour attachment, no depth
attachment, and exactly one producer declaration, which names that colour attachment with
usage FRAMEBUFFER_ATTACHMENT_WRITE; hence every target a pass writes through its framebuffer
is declared as a producer of the pass. -/
theorem populateRenderGraph_producers_match_framebuffer (self : Ssao)
    (rgraph : RenderGraphDescription) :
    (self.registeredPasses rgraph).map (fun pass => pass.m_name)
      = ["SSAO main", "SSAO hblur", "SSAO vblur"] ∧
    ∀ pass ∈ self.registeredPasses rgraph,
      (∃ h, pass.m_colorRtHandles = [h] ∧
        pass.m_producers = [⟨h, TextureUsageBit.FRAMEBUFFER_ATTACHMENT_WRITE⟩]) ∧
      pass.m_depthStencilRtHandle = none ∧
      (∀ h ∈ pass.m_colorRtHandles, pass.produces h) := by
  rw [Ssao.registeredPasses_eq]
  refine ⟨by simp, ?_⟩
  intro pass hp
  simp only [List.mem_cons, List.mem_singleton, List.not_mem_nil, or_false] at hp
  rcases hp with hp | hp | hp <;> subst hp <;>
    simp [GraphicsRenderPassDescription.produces]

/-- Example for C3 in frame 0: the main pass attaches and produces the handle 2. -/
theorem populateRenderGraph_producers_match_framebuffer_witness :
    ∃ pass ∈ exampleSsao.registeredPasses exampleGraph,
      pass.m_name = "SSAO main" ∧ pass.m_colorRtHandles = [⟨2⟩] ∧
      pass.m_producers = [⟨⟨2⟩, TextureUsageBit.FRAMEBUFFER_ATTACHMENT_WRITE⟩] ∧
      ((∃ h, pass.m_colorRtHandles = [h] ∧
        pass.m_producers = [⟨h, TextureUsageBit.FRAMEBUFFER_ATTACHMENT_WRITE⟩]) ∧
      pass.m_depthStencilRtHandle = none ∧
      (∀ h ∈ pass.m_colorRtHandles, pass.produces h)) :=
  ⟨⟨"SSAO main", some RenderPassWorkCallback.runMainCallback,
      some ⟨1, AttachmentLoadOperation.DONT_CARE⟩, [⟨2⟩], none,
      [⟨⟨0⟩, TextureUsageBit.SAMPLED_FRAGMENT⟩,
       ⟨⟨2⟩, TextureUsageBit.FRAMEBUFFER_ATTACHMENT_WRITE⟩,
       ⟨⟨3⟩, TextureUsageBit.SAMPLED_FRAGMENT⟩,
       ⟨⟨1⟩, TextureUsageBit.SAMPLED_FRAGMENT⟩],
      [⟨⟨2⟩, TextureUsageBit.FRAMEBUFFER_ATTACHMENT_WRITE⟩]⟩,
    by decide, rfl, rfl, rfl,
    (populateRenderGraph_producers_match_framebuffer exampleSsao exampleGraph).2 _ (by decide)⟩

/-- Counterexample to C4 in frame 0: SSAO main consumes the read target (handle 3) and produces
the render target (handle 2), while SSAO hblur consumes the render target and produces the read
target; the two passes and the two targets are different. -/
theorem populateRenderGraph_cyclic_shape_counterexample :
    ∃ A ∈ exampleSsao.registeredPasses exampleGraph,
      ∃ B ∈ exampleSsao.registeredPasses exampleGraph,
        A.m_name = "SSAO main" ∧ B.m_name = "SSAO hblur" ∧
        (⟨3⟩ : RenderTargetHandle) ≠ ⟨2⟩ ∧ cyclicShape A B ⟨3⟩ ⟨2⟩ := by
  decide

/-- C4, amended: for every frame count the registered passes do have the shape of the cycle
scenario, on two different passes and two different targets: SSAO main consumes the read target
and produces the render target while SSAO hblur consumes the render target and produces the
read target. When the two imported SSAO targets, the G-buffer colour target 2 and the quarter
resolution depth target are four distinct handles, every occurrence of the shape on two
different targets is on the two imported SSAO targets and has SSAO hblur as one of its two
passes; the G-buffer and depth targets take no part in it. -/
theorem populateRenderGraph_cyclic_shape (self : Ssao) (rgraph : RenderGraphDescription) :
    (∃ A ∈ self.registeredPasses rgraph, ∃ B ∈ self.registeredPasses rgraph,
      A.m_name = "SSAO main" ∧ B.m_name = "SSAO hblur" ∧
      (self.importedRts rgraph).get (if self.m_r.frameCount &&& 1 = 0 then 1 else 0)
        ≠ (self.importedRts rgraph).get (self.m_r.frameCount &&& 1) ∧
      cyclicShape A B
        ((self.importedRts rgraph).get (if self.m_r.frameCount &&& 1 = 0 then 1 else 0))
        ((self.importedRts rgraph).get (self.m_r.frameCount &&& 1))) ∧
    ([(self.importedRts rgraph).get 0, (self.importedRts rgraph).get 1,
        self.m_r.gbufferColorRt2, self.m_r.quarterColorRt].Nodup →
      ∀ A ∈ self.registeredPasses rgraph, ∀ B ∈ self.registeredPasses rgraph,
        ∀ R1 R2 : RenderTargetHandle, R1 ≠ R2 → cyclicShape A B R1 R2 →
          ((R1 = (self.importedRts rgraph).get 0 ∧ R2 = (self.importedRts rgraph).get 1) ∨
           (R1 = (self.importedRts rgraph).get 1 ∧ R2 = (self.importedRts rgraph).get 0)) ∧
          (A.m_name = "SSAO hblur" ∨ B.m_name = "SSAO hblur")) := by
  constructor
  · rw [Ssao.importedRts_render, Ssao.importedRts_read, Ssao.registeredPasses_eq]
    refine ⟨_, List.mem_cons_self _ _, _, List.mem_cons_of_mem _ (List.mem_cons_self _ _),
      rfl, rfl, by simp, ?_⟩
    simp [cyclicShape, GraphicsRenderPassDescription.consumes,
      GraphicsRenderPassDescription.produces]
  · intro hd A hA B hB R1 R2 hne hshape
    obtain ⟨hg1, hg2, hq1, hq2⟩ := Ssao.distinct_handles self rgraph hd
    rw [Ssao.registeredPasses_eq] at hA hB
    rw [Ssao.importedRts_eq]
    simp only [List.mem_cons, List.mem_singleton, List.not_mem_nil, or_false] at hA hB
    rcases Nat.mod_two_eq_zero_or_one self.m_r.frameCount with h | h <;>
    rcases hA with hA | hA | hA <;> rcases hB with hB | hB | hB <;> subst hA <;> subst hB <;>
      simp [cyclicShape, GraphicsRenderPassDescription.consumes,
        GraphicsRenderPassDescription.produces] at hshape <;>
      obtain ⟨h1, h2, h3, h4⟩ := hshape <;> subst h2 <;> subst h4 <;>
      simp_all [Array2.get]

/-- Example for the amended C4 in frame 0, where the handles 2, 3, 0, 1 are distinct: the
occurrence of the shape on SSAO hblur and SSAO vblur is on the imported targets 2 and 3. -/
theorem populateRenderGraph_cyclic_shape_witness :
    ((⟨2⟩ : RenderTargetHandle) = (exampleSsao.importedRts exampleGraph).get 0 ∧
        (⟨3⟩ : RenderTargetHandle) = (exampleSsao.importedRts exampleGraph).get 1 ∨
      (⟨2⟩ : RenderTargetHandle) = (exampleSsao.importedRts exampleGraph).get 1 ∧
        (⟨3⟩ : RenderTargetHandle) = (exampleSsao.importedRts exampleGraph).get 0) ∧
    ("SSAO hblur" = "SSAO hblur" ∨ "SSAO vblur" = "SSAO hblur") :=
  (populateRenderGraph_cyclic_shape exampleSsao exampleGraph).2 (by decide)
    ⟨"SSAO hblur", some RenderPassWorkCallback.runHBlurCallback,
      some ⟨1, AttachmentLoadOperation.DONT_CARE⟩, [⟨3⟩], none,
      [⟨⟨3⟩, TextureUsageBit.FRAMEBUFFER_ATTACHMENT_WRITE⟩,
       ⟨⟨2⟩, TextureUsageBit.SAMPLED_FRAGMENT⟩,
       ⟨⟨1⟩, TextureUsageBit.SAMPLED_FRAGMENT⟩],
      [⟨⟨3⟩, TextureUsageBit.FRAMEBUFFER_ATTACHMENT_WRITE⟩]⟩ (by decide)
    ⟨"SSAO vblur", some RenderPassWorkCallback.runVBlurCallback,
      some ⟨1, AttachmentLoadOperation.DONT_CARE⟩, [⟨2⟩], none,
      [⟨⟨2⟩, TextureUsageBit.FRAMEBUFFER_ATTACHMENT_WRITE⟩,
       ⟨⟨3⟩, TextureUsageBit.SAMPLED_FRAGMENT⟩,
       ⟨⟨1⟩, TextureUsageBit.SAMPLED_FRAGMENT⟩],
      [⟨⟨2⟩, TextureUsageBit.FRAMEBUFFER_ATTACHMENT_WRITE⟩]⟩ (by decide)
    ⟨2⟩ ⟨3⟩ (by decide) (by decide)

theorem Ssao.populateRenderGraph_read_usage (self : Ssao) (rgraph : RenderGraphDescription) :
    ((self.populateRenderGraph rgraph).2.m_renderTargets[
      rgraph.m_renderTargets.length + 1]?).map (fun rt => rt.m_usage)
        = some TextureUsageBit.SAMPLED_FRAGMENT := by
  have h : (self.populateRenderGraph rgraph).2.m_renderTargets
      = rgraph.m_renderTargets ++
        [⟨"SSAO #1", self.m_rtTextures.get (self.m_r.frameCount &&& 1), TextureUsageBit.NONE⟩,
         ⟨"SSAO #2", self.m_rtTextures.get (if self.m_r.frameCount &&& 1 = 0 then 1 else 0),
           TextureUsageBit.SAMPLED_FRAGMENT⟩] := by
    simp [Ssao.populateRenderGraph, RenderGraphDescription.importRenderTarget,
      RenderGraphDescription.newGraphicsRenderPass]
  rw [h, List.getElem?_append_right (by omega)]
  simp

/-- Counterexample to C5 in frame 0: SSAO main, registered first, samples the read target
(handle 3), and SSAO hblur, registered after it, is a producer of that target. So a producer of
a target does not precede every pass that reads it. -/
theorem populateRenderGraph_producer_order_counterexample :
    ∃ A B, (exampleSsao.registeredPasses exampleGraph)[0]? = some A ∧
      (exampleSsao.registeredPasses exampleGraph)[1]? = some B ∧
      A.m_name = "SSAO main" ∧ B.m_name = "SSAO hblur" ∧
      A.samples ⟨3⟩ ∧ B.produces ⟨3⟩ ∧ ¬ (1 < 0) :=
  ⟨_, _, rfl, rfl, by decide, by decide, by decide, by decide, by decide⟩

/-- C5, amended: let the two imported SSAO targets, the G-buffer colour target 2 and the quarter
resolution depth target be four distinct handles, and take the three passes in registration
order. Whenever a pass samples a target that one of the three passes produces, either the pass
registered immediately before it produces that target (SSAO hblur samples what SSAO main wrote,
SSAO vblur samples what SSAO hblur wrote), or the pass is SSAO main and the target is the read
target, which was imported with usage SAMPLED_FRAGMENT and is produced by the next pass. -/
theorem populateRenderGraph_producer_order (self : Ssao) (rgraph : RenderGraphDescription)
    (hd : [(self.importedRts rgraph).get 0, (self.importedRts rgraph).get 1,
      self.m_r.gbufferColorRt2, self.m_r.quarterColorRt].Nodup)
    (i : Nat) (A : GraphicsRenderPassDescription)
    (hA : (self.registeredPasses rgraph)[i]? = some A) (t : RenderTargetHandle)
    (hs : A.samples t) (hp : ∃ B ∈ self.registeredPasses rgraph, B.produces t) :
    (∃ k B, k + 1 = i ∧ (self.registeredPasses rgraph)[k]? = some B ∧ B.produces t) ∨
    (i = 0 ∧
      t = (self.importedRts rgraph).get (if self.m_r.frameCount &&& 1 = 0 then 1 else 0) ∧
      ((self.populateRenderGraph rgraph).2.m_renderTargets[t.m_idx]?).map (fun rt => rt.m_usage)
        = some TextureUsageBit.SAMPLED_FRAGMENT ∧
      ∃ B, (self.registeredPasses rgraph)[1]? = some B ∧ B.produces t) := by
  obtain ⟨hg1, hg2, hq1, hq2⟩ := Ssao.distinct_handles self rgraph hd
  obtain ⟨B, hB, hBp⟩ := hp
  have husage := Ssao.populateRenderGraph_read_usage self rgraph
  rw [Ssao.importedRts_read]
  rw [Ssao.registeredPasses_eq] at hA hB ⊢
  simp only [List.mem_cons, List.mem_singleton, List.not_mem_nil, or_false] at hB
  have hi : i = 0 ∨ i = 1 ∨ i = 2 := by
    rcases i with _ | _ | _ | i
    · simp
    · simp
    · simp
    · simp at hA
  rcases hi with hi | hi | hi <;> subst hi <;> simp at hA <;> subst hA <;>
    rcases hB with hB | hB | hB <;> subst hB <;>
    simp [GraphicsRenderPassDescription.produces] at hBp <;> subst hBp <;>
    simp [GraphicsRenderPassDescription.samples, GraphicsRenderPassDescription.produces,
      Ne.symm hg1, Ne.symm hg2, Ne.symm hq1, Ne.symm hq2] at hs ⊢
  simpa using husage

/-- Witness for the amended C5 in frame 0: SSAO hblur, at position 1, samples the render target
(handle 2), which the pass before it produces. -/
theorem populateRenderGraph_producer_order_witness :
    (∃ k B, k + 1 = 1 ∧ (exampleSsao.registeredPasses exampleGraph)[k]? = some B ∧
      B.produces ⟨2⟩) ∨
    (1 = 0 ∧
      (⟨2⟩ : RenderTargetHandle) = (exampleSsao.importedRts exampleGraph).get
        (if exampleSsao.m_r.frameCount &&& 1 = 0 then 1 else 0) ∧
      ((exampleSsao.populateRenderGraph exampleGraph).2.m_renderTargets[
        (⟨2⟩ : RenderTargetHandle).m_idx]?).map (fun rt => rt.m_usage)
        = some TextureUsageBit.SAMPLED_FRAGMENT ∧
      ∃ B, (exampleSsao.registeredPasses exampleGraph)[1]? = some B ∧ B.produces ⟨2⟩) :=
  populateRenderGraph_producer_order exampleSsao exampleGraph (by decide) 1
    ⟨"SSAO hblur", some RenderPassWorkCallback.runHBlurCallback,
      some ⟨1, AttachmentLoadOperation.DONT_CARE⟩, [⟨3⟩], none,
      [⟨⟨3⟩, TextureUsageBit.FRAMEBUFFER_ATTACHMENT_WRITE⟩,
       ⟨⟨2⟩, TextureUsageBit.SAMPLED_FRAGMENT⟩,
       ⟨⟨1⟩, TextureUsageBit.SAMPLED_FRAGMENT⟩],
      [⟨⟨3⟩, TextureUsageBit.FRAMEBUFFER_ATTACHMENT_WRITE⟩]⟩ (by decide) ⟨2⟩ (by decide)
    (by decide)

/-- C6: for every frame count, when the two imported SSAO targets, the G-buffer colour target 2
and the quarter resolution depth target are four distinct handles, any two declarations of one
registered pass (consumer or producer) that name the same handle carry the same usage: no pass
declares one handle with two different usage modes. -/
theorem populateRenderGraph_no_ambiguous_access (self : Ssao) (rgraph : RenderGraphDescription)
    (hd : [(self.importedRts rgraph).get 0, (self.importedRts rgraph).get 1,
      self.m_r.gbufferColorRt2, self.m_r.quarterColorRt].Nodup) :
    ∀ pass ∈ self.registeredPasses rgraph,
      ∀ d1 ∈ pass.m_consumers ++ pass.m_producers, ∀ d2 ∈ pass.m_consumers ++ pass.m_producers,
        d1.m_handle = d2.m_handle → d1.m_usage = d2.m_usage := by
  obtain ⟨hg1, hg2, hq1, hq2⟩ := Ssao.distinct_handles self rgraph hd
  rw [Ssao.registeredPasses_eq]
  intro pass hp d1 h1 d2 h2 heq
  simp only [List.mem_cons, List.mem_singleton, List.not_mem_nil, or_false] at hp
  rcases hp with hp | hp | hp <;> subst hp <;>
    simp only [List.mem_cons, List.mem_singleton, List.not_mem_nil, or_false, List.mem_append,
      List.cons_append, List.nil_append] at h1 h2
  · rcases h1 with h1 | h1 | h1 | h1 | h1 <;> subst h1 <;>
      rcases h2 with h2 | h2 | h2 | h2 | h2 <;> subst h2 <;> simp_all
  · rcases h1 with h1 | h1 | h1 | h1 <;> subst h1 <;>
      rcases h2 with h2 | h2 | h2 | h2 <;> subst h2 <;> simp_all
  · rcases h1 with h1 | h1 | h1 | h1 <;> subst h1 <;>
      rcases h2 with h2 | h2 | h2 | h2 <;> subst h2 <;> simp_all

/-- Witness for C6 in frame 0, where the four handles are 2, 3, 0 and 1. -/
theorem populateRenderGraph_no_ambiguous_access_witness :
    [(exampleSsao.importedRts exampleGraph).get 0, (exampleSsao.importedRts exampleGraph).get 1,
      exampleSsao.m_r.gbufferColorRt2, exampleSsao.m_r.quarterColorRt]
      = [⟨2⟩, ⟨3⟩, ⟨0⟩, ⟨1⟩] ∧
    ∀ pass ∈ exampleSsao.registeredPasses exampleGraph,
      ∀ d1 ∈ pass.m_consumers ++ pass.m_producers, ∀ d2 ∈ pass.m_consumers ++ pass.m_producers,
        d1.m_handle = d2.m_handle → d1.m_usage = d2.m_usage :=
  ⟨by decide, populateRenderGraph_no_ambiguous_access exampleSsao exampleGraph (by decide)⟩

/-! ### SceneNode::tryGetComponent -/

theorem tryGetComponentLoop_eq_none (comps : List SceneComponent) (type : SceneComponentType) :
    ∀ (count : Nat) (h : count ≤ comps.length),
      tryGetComponentLoop comps type count h = none ↔
        ∀ i (hi : i < count), (comps.get ⟨i, Nat.lt_of_lt_of_le hi h⟩).getType ≠ type := by
  intro count
  induction count with
  | zero => intro h; simp [tryGetComponentLoop]
  | succ n ih =>
    intro h
    unfold tryGetComponentLoop
    by_cases hm : (comps.get ⟨n, h⟩).getType = type
    · simp only [hm, if_true]
      constructor
      · intro hc; cases hc
      · intro hall; exact absurd hm (hall n (Nat.lt_succ_self n))
    · simp only [hm, if_false]
      rw [ih (Nat.le_of_succ_le h)]
      constructor
      · intro hall i hi
        rcases Nat.lt_succ_iff_lt_or_eq.mp hi with hlt | heq
        · exact hall i hlt
        · subst heq; exact hm
      · intro hall i hi
        exact hall i (Nat.lt_succ_of_lt hi)

theorem tryGetComponentLoop_eq_some (comps : List SceneComponent) (type : SceneComponentType) :
    ∀ (count : Nat) (h : count ≤ comps.length) (c : SceneComponent),
      tryGetComponentLoop comps type count h = some c →
        ∃ i, ∃ hi : i < count, comps.get ⟨i, Nat.lt_of_lt_of_le hi h⟩ = c ∧ c.getType = type ∧
          ∀ j (hj : j < count), i < j →
            (comps.get ⟨j, Nat.lt_of_lt_of_le hj h⟩).getType ≠ type := by
  intro count
  induction count with
  | zero => intro h c hc; simp [tryGetComponentLoop] at hc
  | succ n ih =>
    intro h c hc
    unfold tryGetComponentLoop at hc
    by_cases hm : (comps.get ⟨n, h⟩).getType = type
    · simp only [hm, if_true, Option.some.injEq] at hc
      refine ⟨n, Nat.lt_succ_self n, hc, hc ▸ hm, ?_⟩
      intro j hj hnj
      omega
    · simp only [hm, if_false] at hc
      obtain ⟨i, hi, hget, hty, hlast⟩ := ih (Nat.le_of_succ_le h) c hc
      refine ⟨i, Nat.lt_succ_of_lt hi, hget, hty, ?_⟩
      intro j hj hij
      rcases Nat.lt_succ_iff_lt_or_eq.mp hj with hlt | heq
      · exact hlast j hlt hij
      · subst heq; exact hm

/-- What `tryGetComponent` does: the result is `nullptr` exactly when none of the components in
use has the requested type, and a component it returns is the matching one with the highest
index, the one added last. -/
theorem tryGetComponent_last_match (self : SceneNode) (type : SceneComponentType) :
    (self.tryGetComponent type = none ↔
      ∀ i (hi : i < self.m_componentsCount),
        (self.m_components.get ⟨i, Nat.lt_of_lt_of_le hi self.m_countLe⟩).getType ≠ type) ∧
    (∀ c, self.tryGetComponent type = some c →
      ∃ i, ∃ hi : i < self.m_componentsCount,
        self.m_components.get ⟨i, Nat.lt_of_lt_of_le hi self.m_countLe⟩ = c ∧
        c.getType = type ∧
        ∀ j (hj : j < self.m_componentsCount), i < j →
          (self.m_components.get ⟨j, Nat.lt_of_lt_of_le hj self.m_countLe⟩).getType ≠ type) :=
  ⟨tryGetComponentLoop_eq_none _ _ _ _, tryGetComponentLoop_eq_some _ _ _ _⟩

/-- C7 (the code departs from the claim): on a node whose components, in the order they were
added, are (type 1, object 100), (type 2, object 150), (type 1, object 200), the call
`tryGetComponent` for type 1 returns object 200, the matching component with the highest
index, although the matching component with the lowest index is object 100 at index 0. -/
theorem tryGetComponent_returns_last_added :
    exampleSceneNode.tryGetComponent 1 = some ⟨1, 200⟩ ∧
    exampleSceneNode.m_components[0]? = some ⟨1, 100⟩ ∧
    exampleSceneNode.m_components[2]? = some ⟨1, 200⟩ ∧
    exampleSceneNode.m_components.find? (fun c => c.getType = 1) = some ⟨1, 100⟩ := by
  decide

/-! ### XmlElement::getVec2, getVec3, getVec4, getMat3, getMat4 -/

theorem copyLoop_frame {F32 : Type} {n : Nat} (arr : List F32) :
    ∀ (remaining i : Nat) (out : FloatArray F32 n) (j : Fin n), j.val < i →
      copyLoop arr remaining i out j = out j := by
  intro remaining
  induction remaining with
  | zero => intro i out j _; rfl
  | succ r ih =>
    intro i out j hj
    unfold copyLoop
    cases arr[i]? with
    | none => exact ih (i + 1) out j (by omega)
    | some v =>
      simp only
      rw [ih (i + 1) _ j (by omega)]
      unfold FloatArray.setElem
      split
      · rw [Function.update_noteq]
        intro hji
        have := congrArg Fin.val hji
        simp at this
        omega
      · rfl

theorem copyLoop_copies {F32 : Type} {n : Nat} (arr : List F32) :
    ∀ (remaining i : Nat) (out : FloatArray F32 n) (j : Fin n), i ≤ j.val →
      j.val < i + remaining → i + remaining ≤ arr.length →
      arr[j.val]? = some (copyLoop arr remaining i out j) := by
  intro remaining
  induction remaining with
  | zero => intro i out j h1 h2 _; omega
  | succ r ih =>
    intro i out j h1 h2 h3
    unfold copyLoop
    have hi : i < arr.length := by omega
    rw [List.getElem?_eq_getElem hi]
    simp only
    by_cases hji : j.val = i
    · rw [copyLoop_frame arr r (i + 1) _ j (by omega)]
      have hjn : i < n := hji ▸ j.isLt
      have hj : j = ⟨i, hjn⟩ := Fin.ext hji
      unfold FloatArray.setElem
      rw [dif_pos hjn, hj, Function.update_same]
      exact List.getElem?_eq_getElem hi
    · exact ih (i + 1) _ j (by omega) (by omega) (by omega)

theorem copyLoopChecked_none {F32 : Type} {n : Nat} (arr : List F32) :
    ∀ (remaining i : Nat) (out : FloatArray F32 n),
      copyLoopChecked arr ErrorCode.NONE remaining i out = copyLoop arr remaining i out := by
  intro remaining
  induction remaining with
  | zero => intro i out; rfl
  | succ r ih =>
    intro i out
    unfold copyLoopChecked copyLoop
    cases arr[i]? with
    | none => simp [Error.isErr, ih]
    | some v => simp [Error.isErr, ih]

/-- C8: for getVec2, getVec3, getVec4, getMat3 and getMat4, with N = 2, 3, 4, 9 and 16: on an
element with an underlying node on which `getNumbers` succeeds with the numbers `arr`, the
getter returns, and it returns `ErrorCode::NONE` exactly when `arr` has N numbers; with N numbers
it returns `NONE` and `out[i]` is the i-th number for every i < N; with any other count it returns
`ErrorCode::USER_DATA` and `out` is what it was. -/
theorem getVec_getMat_element_count {F32 : Type} (getNumbers : XmlElement → Error × List F32)
    (self : XmlElement) (el : XMLElement) (hel : self.m_el = some el) (arr : List F32)
    (hnum : getNumbers self = (ErrorCode.NONE, arr)) :
    (∀ out : Vec2 F32,
      (∃ r, self.getVec2 getNumbers out = some r ∧ (r.1 = ErrorCode.NONE ↔ arr.length = 2)) ∧
      (arr.length = 2 → ∃ res, self.getVec2 getNumbers out = some (ErrorCode.NONE, res) ∧
        ∀ i : Fin 2, arr[i.val]? = some (res i)) ∧
      (arr.length ≠ 2 → self.getVec2 getNumbers out = some (ErrorCode.USER_DATA, out))) ∧
    (∀ out : Vec3 F32,
      (∃ r, self.getVec3 getNumbers out = some r ∧ (r.1 = ErrorCode.NONE ↔ arr.length = 3)) ∧
      (arr.length = 3 → ∃ res, self.getVec3 getNumbers out = some (ErrorCode.NONE, res) ∧
        ∀ i : Fin 3, arr[i.val]? = some (res i)) ∧
      (arr.length ≠ 3 → self.getVec3 getNumbers out = some (ErrorCode.USER_DATA, out))) ∧
    (∀ out : Vec4 F32,
      (∃ r, self.getVec4 getNumbers out = some r ∧ (r.1 = ErrorCode.NONE ↔ arr.length = 4)) ∧
      (arr.length = 4 → ∃ res, self.getVec4 getNumbers out = some (ErrorCode.NONE, res) ∧
        ∀ i : Fin 4, arr[i.val]? = some (res i)) ∧
      (arr.length ≠ 4 → self.getVec4 getNumbers out = some (ErrorCode.USER_DATA, out))) ∧
    (∀ out : Mat3 F32,
      (∃ r, self.getMat3 getNumbers out = some r ∧ (r.1 = ErrorCode.NONE ↔ arr.length = 9)) ∧
      (arr.length = 9 → ∃ res, self.getMat3 getNumbers out = some (ErrorCode.NONE, res) ∧
        ∀ i : Fin 9, arr[i.val]? = some (res i)) ∧
      (arr.length ≠ 9 → self.getMat3 getNumbers out = some (ErrorCode.USER_DATA, out))) ∧
    (∀ out : Mat4 F32,
      (∃ r, self.getMat4 getNumbers out = some r ∧ (r.1 = ErrorCode.NONE ↔ arr.length = 16)) ∧
      (arr.length = 16 → ∃ res, self.getMat4 getNumbers out = some (ErrorCode.NONE, res) ∧
        ∀ i : Fin 16, arr[i.val]? = some (res i)) ∧
      (arr.length ≠ 16 → self.getMat4 getNumbers out = some (ErrorCode.USER_DATA, out))) := by
  refine ⟨fun out => ?_, fun out => ?_, fun out => ?_, fun out => ?_, fun out => ?_⟩
  · by_cases h : arr.length = 2
    · have hr : self.getVec2 getNumbers out = some (ErrorCode.NONE, copyLoop arr 2 0 out) := by
        simp [XmlElement.getVec2, hnum, h, Error.isErr, XmlElement.logAndReturn]
      refine ⟨⟨_, hr, by simp [h]⟩, fun _ => ⟨_, hr, fun i => ?_⟩, fun hne => absurd h hne⟩
      exact copyLoop_copies arr 2 0 out i (Nat.zero_le _) (by omega) (by omega)
    · have hr : self.getVec2 getNumbers out = some (ErrorCode.USER_DATA, out) := by
        simp [XmlElement.getVec2, hnum, h, hel, Error.isErr, XmlElement.logAndReturn]
      exact ⟨⟨_, hr, by simp [h]⟩, fun he => absurd he h, fun _ => hr⟩
  · by_cases h : arr.length = 3
    · have hr : self.getVec3 getNumbers out = some (ErrorCode.NONE, copyLoop arr 3 0 out) := by
        simp [XmlElement.getVec3, hnum, h, Error.isErr, XmlElement.logAndReturn]
      refine ⟨⟨_, hr, by simp [h]⟩, fun _ => ⟨_, hr, fun i => ?_⟩, fun hne => absurd h hne⟩
      exact copyLoop_copies arr 3 0 out i (Nat.zero_le _) (by omega) (by omega)
    · have hr : self.getVec3 getNumbers out = some (ErrorCode.USER_DATA, out) := by
        simp [XmlElement.getVec3, hnum, h, hel, Error.isErr, XmlElement.logAndReturn]
      exact ⟨⟨_, hr, by simp [h]⟩, fun he => absurd he h, fun _ => hr⟩
  · by_cases h : arr.length = 4
    · have hr : self.getVec4 getNumbers out = some (ErrorCode.NONE, copyLoop arr 4 0 out) := by
        simp [XmlElement.getVec4, hnum, h, Error.isErr, XmlElement.logAndReturn]
      refine ⟨⟨_, hr, by simp [h]⟩, fun _ => ⟨_, hr, fun i => ?_⟩, fun hne => absurd h hne⟩
      exact copyLoop_copies arr 4 0 out i (Nat.zero_le _) (by omega) (by omega)
    · have hr : self.getVec4 getNumbers out = some (ErrorCode.USER_DATA, out) := by
        simp [XmlElement.getVec4, hnum, h, hel, Error.isErr, XmlElement.logAndReturn]
      exact ⟨⟨_, hr, by simp [h]⟩, fun he => absurd he h, fun _ => hr⟩
  · by_cases h : arr.length = 9
    · have hr : self.getMat3 getNumbers out = some (ErrorCode.NONE, copyLoop arr 9 0 out) := by
        simp [XmlElement.getMat3, hnum, h, Error.isErr, XmlElement.logAndReturn, copyLoopChecked_none]
      refine ⟨⟨_, hr, by simp [h]⟩, fun _ => ⟨_, hr, fun i => ?_⟩, fun hne => absurd h hne⟩
      exact copyLoop_copies arr 9 0 out i (Nat.zero_le _) (by omega) (by omega)
    · have hr : self.getMat3 getNumbers out = some (ErrorCode.USER_DATA, out) := by
        simp [XmlElement.getMat3, hnum, h, hel, Error.isErr, XmlElement.logAndReturn]
      exact ⟨⟨_, hr, by simp [h]⟩, fun he => absurd he h, fun _ => hr⟩
  · by_cases h : arr.length = 16
    · have hr : self.getMat4 getNumbers out = some (ErrorCode.NONE, copyLoop arr 16 0 out) := by
        simp [XmlElement.getMat4, hnum, h, Error.isErr, XmlElement.logAndReturn, copyLoopChecked_none]
      refine ⟨⟨_, hr, by simp [h]⟩, fun _ => ⟨_, hr, fun i => ?_⟩, fun hne => absurd h hne⟩
      exact copyLoop_copies arr 16 0 out i (Nat.zero_le _) (by omega) (by omega)
    · have hr : self.getMat4 getNumbers out = some (ErrorCode.USER_DATA, out) := by
        simp [XmlElement.getMat4, hnum, h, hel, Error.isErr, XmlElement.logAndReturn]
      exact ⟨⟨_, hr, by simp [h]⟩, fun he => absurd he h, fun _ => hr⟩

/-- Witness for C8: an element whose text holds the two numbers 5 and 7. `getVec2` succeeds and
fills both components; `getVec3` fails with `USER_DATA` and leaves its output alone. -/
theorem getVec_getMat_element_count_witness :
    (∃ res, (XmlElement.mk (some ⟨XMLNode.mk "v" (some "5 7") [] [], []⟩)).getVec2
        (fun _ => (ErrorCode.NONE, [(5 : Int), 7])) (fun _ => 0) = some (ErrorCode.NONE, res) ∧
      ∀ i : Fin 2, [(5 : Int), 7][i.val]? = some (res i)) ∧
    (XmlElement.mk (some ⟨XMLNode.mk "v" (some "5 7") [] [], []⟩)).getVec3
        (fun _ => (ErrorCode.NONE, [(5 : Int), 7])) (fun _ => 0)
      = some (ErrorCode.USER_DATA, fun _ => 0) :=
  ⟨((getVec_getMat_element_count (fun _ => (ErrorCode.NONE, [(5 : Int), 7]))
      (XmlElement.mk (some ⟨XMLNode.mk "v" (some "5 7") [] [], []⟩))
      ⟨XMLNode.mk "v" (some "5 7") [] [], []⟩ rfl [5, 7] rfl).1 (fun _ => 0)).2.1 rfl,
   ((getVec_getMat_element_count (fun _ => (ErrorCode.NONE, [(5 : Int), 7]))
      (XmlElement.mk (some ⟨XMLNode.mk "v" (some "5 7") [] [], []⟩))
      ⟨XMLNode.mk "v" (some "5 7") [] [], []⟩ rfl [5, 7] rfl).2.1 (fun _ => 0)).2.2
        (by decide)⟩

/-! ### XmlElement::getChildElement, getChildElementOptional -/

theorem firstElementNamed_eq_none (name : String) (nodes : List XMLNode) :
    firstElementNamed name nodes = none ↔ ∀ c ∈ nodes, c.name ≠ name := by
  induction nodes with
  | nil => simp [firstElementNamed]
  | cons c rest ih =>
    unfold firstElementNamed
    by_cases hc : c.name = name
    · simp [hc]
    · simp [hc, ih]

theorem firstElementNamed_of_split (name : String) (pre : List XMLNode) (c : XMLNode)
    (post : List XMLNode) (hc : c.name = name) (hpre : ∀ x ∈ pre, x.name ≠ name) :
    firstElementNamed name (pre ++ c :: post) = some ⟨c, post⟩ := by
  induction pre with
  | nil => simp [firstElementNamed, hc]
  | cons x rest ih =>
    have hx : x.name ≠ name := hpre x (List.mem_cons_self _ _)
    have hrest : ∀ y ∈ rest, y.name ≠ name := fun y hy => hpre y (List.mem_cons_of_mem _ hy)
    simp [firstElementNamed, hx, ih hrest]

theorem firstElementNamed_eq_some (name : String) (nodes : List XMLNode) (e : XMLElement)
    (h : firstElementNamed name nodes = some e) :
    ∃ pre, nodes = pre ++ e.node :: e.nextSiblings ∧ e.node.name = name ∧
      ∀ x ∈ pre, x.name ≠ name := by
  induction nodes with
  | nil => simp [firstElementNamed] at h
  | cons c rest ih =>
    unfold firstElementNamed at h
    by_cases hc : c.name = name
    · simp only [hc, if_true, Option.some.injEq] at h
      subst h
      exact ⟨[], by simp, hc, by simp⟩
    · simp only [hc, if_false] at h
      obtain ⟨pre, hsplit, hname, hpre⟩ := ih h
      refine ⟨c :: pre, by simp [hsplit], hname, ?_⟩
      intro x hx
      rcases List.mem_cons.mp hx with hx | hx
      · subst hx; exact hc
      · exact hpre x hx

/-- C9: on an element with an underlying node, `getChildElement(name, out)` returns
`ErrorCode::USER_DATA` exactly when no child element is named `name`, and then
`getChildElementOptional` returns `NONE` with an empty `out`; when a child element is named
`name`, both return `NONE` with `out` wrapping the first such child, the one before which no
child has that name; `getChildElementOptional` returns `NONE` in every case. -/
theorem getChildElement_first_child (self : XmlElement) (el : XMLElement)
    (hel : self.m_el = some el) (name : String) :
    ((self.getChildElement name).1 = ErrorCode.USER_DATA ↔
      ∀ c ∈ el.node.children, c.name ≠ name) ∧
    ((∀ c ∈ el.node.children, c.name ≠ name) →
      self.getChildElement name = (ErrorCode.USER_DATA, XmlElement.empty) ∧
      self.getChildElementOptional name = (ErrorCode.NONE, XmlElement.empty)) ∧
    ((∃ c ∈ el.node.children, c.name = name) →
      ∃ pre c post, el.node.children = pre ++ c :: post ∧ c.name = name ∧
        (∀ x ∈ pre, x.name ≠ name) ∧
        self.getChildElement name = (ErrorCode.NONE, ⟨some ⟨c, post⟩⟩) ∧
        self.getChildElementOptional name = (ErrorCode.NONE, ⟨some ⟨c, post⟩⟩)) ∧
    (self.getChildElementOptional name).1 = ErrorCode.NONE := by
  have hopt : self.getChildElementOptional name
      = (ErrorCode.NONE, ⟨firstElementNamed name el.node.children⟩) := by
    simp [XmlElement.getChildElementOptional, XmlElement.check, hel, Error.isErr,
      XMLElement.FirstChildElement]
  have hnone : (∀ c ∈ el.node.children, c.name ≠ name) →
      self.getChildElement name = (ErrorCode.USER_DATA, XmlElement.empty) ∧
      self.getChildElementOptional name = (ErrorCode.NONE, XmlElement.empty) := by
    intro hall
    have hf := (firstElementNamed_eq_none name el.node.children).mpr hall
    refine ⟨?_, by rw [hopt, hf]; rfl⟩
    simp [XmlElement.getChildElement, hopt, hf, XmlElement.check, hel, Error.isErr,
      XmlElement.toBool, XmlElement.empty]
  have hsome : (∃ c ∈ el.node.children, c.name = name) →
      ∃ pre c post, el.node.children = pre ++ c :: post ∧ c.name = name ∧
        (∀ x ∈ pre, x.name ≠ name) ∧
        self.getChildElement name = (ErrorCode.NONE, ⟨some ⟨c, post⟩⟩) ∧
        self.getChildElementOptional name = (ErrorCode.NONE, ⟨some ⟨c, post⟩⟩) := by
    intro hex
    cases hf : firstElementNamed name el.node.children with
    | none =>
      obtain ⟨c, hc, hcn⟩ := hex
      exact absurd hcn ((firstElementNamed_eq_none name _).mp hf c hc)
    | some e =>
      obtain ⟨pre, hsplit, hname, hpre⟩ := firstElementNamed_eq_some name _ e hf
      refine ⟨pre, e.node, e.nextSiblings, hsplit, hname, hpre, ?_, by rw [hopt, hf]⟩
      simp [XmlElement.getChildElement, hopt, hf, XmlElement.check, hel, Error.isErr,
        XmlElement.toBool]
  refine ⟨⟨?_, fun hall => by rw [(hnone hall).1]⟩, hnone, hsome, by rw [hopt]⟩
  intro herr c hc hcn
  obtain ⟨_, _, _, _, _, _, hget, _⟩ := hsome ⟨c, hc, hcn⟩
  rw [hget] at herr
  cases herr

/-- Witness for C9: an element with the children a, b, b. Asking for b yields the first b, the
one followed by one more sibling; asking for c fails with `USER_DATA`. -/
theorem getChildElement_first_child_witness :
    (∃ pre c post,
      [XMLNode.mk "a" none [] [], XMLNode.mk "b" (some "1") [] [], XMLNode.mk "b" (some "2") [] []]
        = pre ++ c :: post ∧ c.name = "b" ∧ (∀ x ∈ pre, x.name ≠ "b") ∧
      (XmlElement.mk (some ⟨XMLNode.mk "root" none []
        [XMLNode.mk "a" none [] [], XMLNode.mk "b" (some "1") [] [],
          XMLNode.mk "b" (some "2") [] []], []⟩)).getChildElement "b"
        = (ErrorCode.NONE, ⟨some ⟨c, post⟩⟩) ∧
      (XmlElement.mk (some ⟨XMLNode.mk "root" none []
        [XMLNode.mk "a" none [] [], XMLNode.mk "b" (some "1") [] [],
          XMLNode.mk "b" (some "2") [] []], []⟩)).getChildElementOptional "b"
        = (ErrorCode.NONE, ⟨some ⟨c, post⟩⟩)) :=
  (getChildElement_first_child
    (XmlElement.mk (some ⟨XMLNode.mk "root" none []
      [XMLNode.mk "a" none [] [], XMLNode.mk "b" (some "1") [] [],
        XMLNode.mk "b" (some "2") [] []], []⟩))
    ⟨XMLNode.mk "root" none []
      [XMLNode.mk "a" none [] [], XMLNode.mk "b" (some "1") [] [],
        XMLNode.mk "b" (some "2") [] []], []⟩ rfl "b").2.2.1
    ⟨XMLNode.mk "b" (some "1") [] [], by simp [XMLNode.children], by simp [XMLNode.name]⟩

/-! ### XmlElement::getSiblingElementsCount -/

theorem getSiblingElementsCountLoop_eq (name : String) :
    ∀ (fuel : Nat) (el : XMLElement) (count : Int), el.nextSiblings.length < fuel →
      getSiblingElementsCountLoop name fuel el count
        = some (count + 1 + ((el.nextSiblings.filter (fun node => node.name = name)).length : Int))
    := by
  intro fuel
  induction fuel with
  | zero => intro el count h; omega
  | succ n ih =>
    intro el count h
    unfold getSiblingElementsCountLoop
    cases hf : el.NextSiblingElement name with
    | none =>
      have hall := (firstElementNamed_eq_none name el.nextSiblings).mp hf
      have hnil : el.nextSiblings.filter (fun node => node.name = name) = [] := by
        rw [List.filter_eq_nil_iff]
        intro c hc
        simpa using hall c hc
      simp [hnil]
    | some next =>
      obtain ⟨pre, hsplit, hname, hpre⟩ := firstElementNamed_eq_some name _ next hf
      have hprenil : pre.filter (fun node => node.name = name) = [] := by
        rw [List.filter_eq_nil_iff]
        intro c hc
        simpa using hpre c hc
      have hlen : next.nextSiblings.length < n := by
        have := congrArg List.length hsplit
        simp at this
        omega
      simp only
      rw [ih next (count + 1) hlen, hsplit, List.filter_append, hprenil,
        List.filter_cons_of_pos (by simpa using hname)]
      simp
      omega

theorem getSiblingElementsCount_eq (self : XmlElement) (el : XMLElement)
    (hel : self.m_el = some el) (fuel : Nat) (hfuel : el.nextSiblings.length < fuel)
    (out : Nat) :
    self.getSiblingElementsCount fuel out
      = some (ErrorCode.NONE, el.sameNameSiblings.length % 2 ^ 32) := by
  have hloop := getSiblingElementsCountLoop_eq el.node.name fuel el (-1) hfuel
  simp only [XmlElement.getSiblingElementsCount, XmlElement.check, hel, hloop,
    XMLElement.sameNameSiblings]
  simp [Error.isErr]
  omega

/-- Counterexample to C10: for an element followed by 2^32 siblings of its own name the loop
ends (2^32 + 1 iterations suffice) and `getSiblingElementsCount` returns `NONE`, but `out` is 0
and not the number of those siblings, because the count is stored in a U32. -/
theorem getSiblingElementsCount_wraps_counterexample :
    (XmlElement.mk (some elementWithManySiblings)).getSiblingElementsCount (2 ^ 32 + 1) 7
      = some (ErrorCode.NONE, 0) ∧
    elementWithManySiblings.sameNameSiblings.length = 2 ^ 32 := by
  have hlen : elementWithManySiblings.nextSiblings.length = 2 ^ 32 := by
    unfold elementWithManySiblings
    exact List.length_replicate _ _
  have hsame : elementWithManySiblings.sameNameSiblings.length = 2 ^ 32 := by
    unfold XMLElement.sameNameSiblings
    rw [List.filter_eq_self.mpr, hlen]
    intro c hc
    have hc2 : c = XMLNode.mk "a" none [] [] := List.eq_of_mem_replicate hc
    subst hc2
    exact decide_eq_true rfl
  refine ⟨?_, hsame⟩
  rw [getSiblingElementsCount_eq _ elementWithManySiblings rfl _ (by rw [hlen]; omega), hsame,
    Nat.mod_self]

/-- C10, amended: on an element with an underlying node, `getSiblingElementsCount` returns
`ErrorCode::NONE` as soon as the loop is granted more iterations than the element has following
siblings, so the loop ends for every finite sibling list; `out` is then the number of following
siblings that have the tag name of the element (the element itself not counted), reduced
modulo 2^32, which is that number itself (0 when there is none) whenever it is below 2^32. -/
theorem getSiblingElementsCount_counts (self : XmlElement) (el : XMLElement)
    (hel : self.m_el = some el) (fuel : Nat) (hfuel : el.nextSiblings.length < fuel)
    (out : Nat) :
    self.getSiblingElementsCount fuel out
      = some (ErrorCode.NONE, el.sameNameSiblings.length % 2 ^ 32) ∧
    (el.sameNameSiblings.length < 2 ^ 32 →
      self.getSiblingElementsCount fuel out = some (ErrorCode.NONE, el.sameNameSiblings.length)) ∧
    (el.sameNameSiblings = [] → self.getSiblingElementsCount fuel out = some (ErrorCode.NONE, 0))
    := by
  have h := getSiblingElementsCount_eq self el hel fuel hfuel out
  refine ⟨h, fun hlt => ?_, fun hnil => ?_⟩
  · rw [h, Nat.mod_eq_of_lt hlt]
  · rw [h, hnil]; rfl

/-- Witness for the amended C10: the element b is followed by the siblings a, b, c, b; two of
them are named b. -/
theorem getSiblingElementsCount_counts_witness :
    (XmlElement.mk (some ⟨XMLNode.mk "b" none [] [],
      [XMLNode.mk "a" none [] [], XMLNode.mk "b" none [] [], XMLNode.mk "c" none [] [],
        XMLNode.mk "b" none [] []]⟩)).getSiblingElementsCount 5 7
      = some (ErrorCode.NONE, 2) :=
  (getSiblingElementsCount_counts
    (XmlElement.mk (some ⟨XMLNode.mk "b" none [] [],
      [XMLNode.mk "a" none [] [], XMLNode.mk "b" none [] [], XMLNode.mk "c" none [] [],
        XMLNode.mk "b" none [] []]⟩))
    ⟨XMLNode.mk "b" none [] [],
      [XMLNode.mk "a" none [] [], XMLNode.mk "b" none [] [], XMLNode.mk "c" none [] [],
        XMLNode.mk "b" none [] []]⟩ rfl 5 (by decide) 7).1

/-! ### XmlElement::getAttributeTextOptional and the empty element -/

theorem find_attribute_of_split (name : String) (pre : List (String × Option String))
    (a : String × Option String) (post : List (String × Option String)) (ha : a.1 = name)
    (hpre : ∀ x ∈ pre, x.1 ≠ name) :
    (pre ++ a :: post).find? (fun attrib => attrib.1 = name) = some a := by
  induction pre with
  | nil => simp [ha]
  | cons x rest ih =>
    have hx : x.1 ≠ name := hpre x (List.mem_cons_self _ _)
    have hrest : ∀ y ∈ rest, y.1 ≠ name := fun y hy => hpre y (List.mem_cons_of_mem _ hy)
    simp [hx, ih hrest]

/-- C11: on an element with an underlying node, `getAttributeTextOptional` returns
`ErrorCode::NONE` in every case; when no attribute has the name it sets `attribPresent` to false
and leaves `out` as it was; when an attribute has the name it sets `attribPresent` to true and
`out` to the value of the first such attribute, the empty `CString()` when that value is null. -/
theorem getAttributeTextOptional_present_or_absent (self : XmlElement) (el : XMLElement)
    (hel : self.m_el = some el) (name : String) (out : CString) (attribPresent : Bool) :
    (self.getAttributeTextOptional name out attribPresent).1 = ErrorCode.NONE ∧
    ((∀ a ∈ el.node.attributes, a.1 ≠ name) →
      self.getAttributeTextOptional name out attribPresent = (ErrorCode.NONE, out, false)) ∧
    (∀ pre a post, el.node.attributes = pre ++ a :: post → a.1 = name →
      (∀ x ∈ pre, x.1 ≠ name) →
      self.getAttributeTextOptional name out attribPresent = (ErrorCode.NONE, a.2, true)) := by
  have habsent : (∀ a ∈ el.node.attributes, a.1 ≠ name) →
      self.getAttributeTextOptional name out attribPresent = (ErrorCode.NONE, out, false) := by
    intro hall
    have hf : el.node.attributes.find? (fun attrib => attrib.1 = name) = none := by
      rw [List.find?_eq_none]
      intro a ha
      simpa using hall a ha
    simp [XmlElement.getAttributeTextOptional, XmlElement.check, hel, Error.isErr,
      XMLElement.FindAttribute, hf]
  have hpresent : ∀ pre a post, el.node.attributes = pre ++ a :: post → a.1 = name →
      (∀ x ∈ pre, x.1 ≠ name) →
      self.getAttributeTextOptional name out attribPresent = (ErrorCode.NONE, a.2, true) := by
    intro pre a post hsplit ha hpre
    have hf : el.node.attributes.find? (fun attrib => attrib.1 = name) = some a := by
      rw [hsplit]
      exact find_attribute_of_split name pre a post ha hpre
    cases hv : a.2 <;>
      simp [XmlElement.getAttributeTextOptional, XmlElement.check, hel, Error.isErr,
        XMLElement.FindAttribute, hf, hv]
  refine ⟨?_, habsent, hpresent⟩
  cases hf : el.node.attributes.find? (fun attrib => attrib.1 = name) with
  | none =>
    simp [XmlElement.getAttributeTextOptional, XmlElement.check, hel, Error.isErr,
      XMLElement.FindAttribute, hf]
  | some a =>
    cases hv : a.2 <;>
      simp [XmlElement.getAttributeTextOptional, XmlElement.check, hel, Error.isErr,
        XMLElement.FindAttribute, hf, hv]

/-- Witness for C11: an element with the attributes id = "7" and empty (null value). The
attribute id is present with the value "7"; the attribute size is absent and `out` keeps its
old content. -/
theorem getAttributeTextOptional_present_or_absent_witness :
    (XmlElement.mk (some ⟨XMLNode.mk "e" none [("id", some "7"), ("empty", none)] [], []⟩)
      ).getAttributeTextOptional "id" (some "old") false = (ErrorCode.NONE, some "7", true) ∧
    (XmlElement.mk (some ⟨XMLNode.mk "e" none [("id", some "7"), ("empty", none)] [], []⟩)
      ).getAttributeTextOptional "size" (some "old") true = (ErrorCode.NONE, some "old", false) :=
  ⟨(getAttributeTextOptional_present_or_absent
      (XmlElement.mk (some ⟨XMLNode.mk "e" none [("id", some "7"), ("empty", none)] [], []⟩))
      ⟨XMLNode.mk "e" none [("id", some "7"), ("empty", none)] [], []⟩ rfl "id" (some "old")
      false).2.2 [] ("id", some "7") [("empty", none)] rfl rfl (by simp),
   (getAttributeTextOptional_present_or_absent
      (XmlElement.mk (some ⟨XMLNode.mk "e" none [("id", some "7"), ("empty", none)] [], []⟩))
      ⟨XMLNode.mk "e" none [("id", some "7"), ("empty", none)] [], []⟩ rfl "size" (some "old")
      true).2.1 (by simp [XMLNode.attributes])⟩

/-- C12: on an empty element (no underlying node) `check` returns `ErrorCode::USER_DATA`;
`getText`, `getChildElementOptional`, `getChildElement` and `getNextSiblingElement` return
`USER_DATA` and set `out` to the empty value; `getSiblingElementsCount` and
`getAttributeTextOptional` return `USER_DATA` and leave their outputs as they were. On an
element with an underlying node `check` returns `NONE`. -/
theorem empty_element_getters (self : XmlElement) :
    (self.m_el = none →
      self.check = ErrorCode.USER_DATA ∧
      self.getText = (ErrorCode.USER_DATA, none) ∧
      (∀ name, self.getChildElementOptional name = (ErrorCode.USER_DATA, XmlElement.empty)) ∧
      (∀ name, self.getChildElement name = (ErrorCode.USER_DATA, XmlElement.empty)) ∧
      (∀ name, self.getNextSiblingElement name = (ErrorCode.USER_DATA, XmlElement.empty)) ∧
      (∀ fuel out, self.getSiblingElementsCount fuel out = some (ErrorCode.USER_DATA, out)) ∧
      (∀ name out attribPresent, self.getAttributeTextOptional name out attribPresent
        = (ErrorCode.USER_DATA, out, attribPresent))) ∧
    (self.m_el ≠ none → self.check = ErrorCode.NONE) := by
  constructor
  · intro h
    refine ⟨?_, ?_, ?_, ?_, ?_, ?_, ?_⟩
    · simp [XmlElement.check, h]
    · simp [XmlElement.getText, XmlElement.check, h, Error.isErr]
    · intro name
      simp [XmlElement.getChildElementOptional, XmlElement.check, h, Error.isErr]
    · intro name
      simp [XmlElement.getChildElement, XmlElement.check, h, Error.isErr]
    · intro name
      simp [XmlElement.getNextSiblingElement, XmlElement.check, h, Error.isErr]
    · intro fuel out
      simp [XmlElement.getSiblingElementsCount, XmlElement.check, h, Error.isErr]
    · intro name out attribPresent
      simp [XmlElement.getAttributeTextOptional, XmlElement.check, h, Error.isErr]
  · intro h
    cases hm : self.m_el with
    | none => exact absurd hm h
    | some el => simp [XmlElement.check, hm]

/-- Witness for C12 on the empty element `XmlElement()`. -/
theorem empty_element_getters_witness :
    XmlElement.empty.check = ErrorCode.USER_DATA ∧
    XmlElement.empty.getText = (ErrorCode.USER_DATA, none) ∧
    XmlElement.empty.getChildElement "a" = (ErrorCode.USER_DATA, XmlElement.empty) ∧
    XmlElement.empty.getSiblingElementsCount 0 7 = some (ErrorCode.USER_DATA, 7) ∧
    XmlElement.empty.getAttributeTextOptional "id" (some "old") true
      = (ErrorCode.USER_DATA, some "old", true) :=
  ⟨((empty_element_getters XmlElement.empty).1 rfl).1,
   ((empty_element_getters XmlElement.empty).1 rfl).2.1,
   ((empty_element_getters XmlElement.empty).1 rfl).2.2.2.1 "a",
   ((empty_element_getters XmlElement.empty).1 rfl).2.2.2.2.2.1 0 7,
   ((empty_element_getters XmlElement.empty).1 rfl).2.2.2.2.2.2 "id" (some "old") true⟩

/-! ### ShaderParser: the parse comes to an end -/

theorem Scanner.getNextToken_length_le (sc : Scanner) :
    sc.getNextToken.2.pending.length ≤ sc.pending.length := by
  unfold Scanner.getNextToken
  cases h : sc.pending with
  | nil => simp [h]
  | cons t rest => obtain ⟨token, line⟩ := t; simp

theorem Scanner.getNextToken_length_lt (sc : Scanner)
    (h : sc.getNextToken.1.code ≠ Scanner.TokenCode.TC_EOF) :
    sc.getNextToken.2.pending.length < sc.pending.length := by
  unfold Scanner.getNextToken at h ⊢
  cases hp : sc.pending with
  | nil => simp [hp] at h
  | cons t rest => obtain ⟨token, line⟩ := t; simp

theorem ShaderParser.pragmaVertShaderBegins_scanner (self : ShaderParser) (filename : String)
    (depth : Nat) (lines : List String) (sc sc2 : Scanner) (self2 : ShaderParser)
    (h : self.pragmaVertShaderBegins filename depth lines sc = ParseFlow.next sc2 self2) :
    sc2 = sc := by
  unfold ShaderParser.pragmaVertShaderBegins at h
  split_ifs at h
  simp only [ParseFlow.next.injEq] at h
  exact h.1.symm

theorem ShaderParser.pragmaFragShaderBegins_scanner (self : ShaderParser) (filename : String)
    (depth : Nat) (lines : List String) (sc sc2 : Scanner) (self2 : ShaderParser)
    (h : self.pragmaFragShaderBegins filename depth lines sc = ParseFlow.next sc2 self2) :
    sc2 = sc := by
  unfold ShaderParser.pragmaFragShaderBegins at h
  split_ifs at h
  simp only [ParseFlow.next.injEq] at h
  exact h.1.symm


theorem ShaderParser.pragmaAttribute_scanner (self : ShaderParser) (filename : String)
    (lines : List String) (sc sc2 : Scanner) (self2 : ShaderParser)
    (h : self.pragmaAttribute filename lines sc = ParseFlow.next sc2 self2) :
    sc2.pending.length ≤ sc.pending.length := by
  unfold ShaderParser.pragmaAttribute at h
  simp only at h
  repeat' split at h
  all_goals cases h
  exact Nat.le_trans (Scanner.getNextToken_length_le _) (Scanner.getNextToken_length_le _)

theorem ShaderParser.pragmaIncludeFile_scanner
    (recur : String → Nat → ShaderParser → Option (Bool × ShaderParser))
    (self : ShaderParser) (depth : Nat) (lines : List String) (sc sc2 : Scanner)
    (self2 : ShaderParser)
    (h : self.pragmaIncludeFile recur depth lines sc = some (ParseFlow.next sc2 self2)) :
    sc2.pending.length ≤ sc.pending.length := by
  unfold ShaderParser.pragmaIncludeFile at h
  simp only at h
  repeat' split at h
  all_goals cases h
  exact Scanner.getNextToken_length_le _

theorem ShaderParser.pragmaAnki_scanner
    (recur : String → Nat → ShaderParser → Option (Bool × ShaderParser))
    (self : ShaderParser) (filename : String) (depth : Nat) (lines : List String)
    (sc sc2 : Scanner) (self2 : ShaderParser)
    (h : self.pragmaAnki recur filename depth lines sc = some (ParseFlow.next sc2 self2)) :
    sc2.pending.length ≤ sc.pending.length := by
  unfold ShaderParser.pragmaAnki at h
  simp only at h
  have hle := Scanner.getNextToken_length_le sc
  split_ifs at h
  · rw [ShaderParser.pragmaVertShaderBegins_scanner _ _ _ _ _ _ _ (Option.some.inj h)]
    exact hle
  · rw [ShaderParser.pragmaFragShaderBegins_scanner _ _ _ _ _ _ _ (Option.some.inj h)]
    exact hle
  · exact Nat.le_trans (ShaderParser.pragmaIncludeFile_scanner _ _ _ _ _ _ _ h) hle
  · exact Nat.le_trans (ShaderParser.pragmaAttribute_scanner _ _ _ _ _ _ (Option.some.inj h)) hle
  · simp only [Option.some.injEq, ParseFlow.next.injEq] at h
    rw [← h.1]
    exact hle

theorem ShaderParser.parseIteration_scanner
    (recur : String → Nat → ShaderParser → Option (Bool × ShaderParser))
    (self : ShaderParser) (filename : String) (depth : Nat) (lines : List String)
    (sc sc2 : Scanner) (self2 : ShaderParser)
    (h : self.parseIteration recur filename depth lines sc = some (ParseFlow.next sc2 self2)) :
    sc2.pending.length < sc.pending.length := by
  have hne : sc.getNextToken.1.code ≠ Scanner.TokenCode.TC_EOF := by
    intro heof
    unfold ShaderParser.parseIteration at h
    simp [heof] at h
  have hlt := Scanner.getNextToken_length_lt sc hne
  have h1 := Scanner.getNextToken_length_le sc.getNextToken.2
  have h2 := Scanner.getNextToken_length_le sc.getNextToken.2.getNextToken.2
  unfold ShaderParser.parseIteration at h
  simp only at h
  by_cases c1 : sc.getNextToken.1.code = Scanner.TokenCode.TC_SHARP
  · rw [if_pos c1] at h
    by_cases c2 : sc.getNextToken.2.getNextToken.1.isIdentifier "pragma" = true
    · rw [if_pos c2] at h
      split at h
      · cases h
      · cases h
      · rename_i scanner2 parser2 hinner
        have h3 : scanner2.pending.length
            ≤ sc.getNextToken.2.getNextToken.2.getNextToken.2.pending.length := by
          split at hinner
          · exact ShaderParser.pragmaAnki_scanner _ _ _ _ _ _ _ _ hinner
          · cases hinner
            exact Nat.le_refl _
        have h4 := Scanner.getNextToken_length_le scanner2
        repeat' split at h
        all_goals cases h
        omega
    · rw [if_neg c2] at h
      cases h
      omega
  · rw [if_neg c1] at h
    repeat' split at h
    all_goals cases h
    all_goals omega

theorem ShaderParser.pragmaIncludeFile_returns
    (recur : String → Nat → ShaderParser → Option (Bool × ShaderParser))
    (self : ShaderParser) (depth : Nat) (lines : List String) (sc : Scanner)
    (hrec : ∀ f s, ∃ r, recur f (depth + 1) s = some r) :
    ∃ flow, self.pragmaIncludeFile recur depth lines sc = some flow := by
  unfold ShaderParser.pragmaIncludeFile
  simp only
  split
  · split
    · rename_i hnone
      obtain ⟨r, hr⟩ := hrec _ _
      rw [hr] at hnone
      cases hnone
    · exact ⟨_, rfl⟩
    · exact ⟨_, rfl⟩
  · exact ⟨_, rfl⟩

theorem ShaderParser.pragmaAnki_returns
    (recur : String → Nat → ShaderParser → Option (Bool × ShaderParser))
    (self : ShaderParser) (filename : String) (depth : Nat) (lines : List String)
    (sc : Scanner) (hrec : ∀ f s, ∃ r, recur f (depth + 1) s = some r) :
    ∃ flow, self.pragmaAnki recur filename depth lines sc = some flow := by
  unfold ShaderParser.pragmaAnki
  simp only
  split_ifs
  · exact ⟨_, rfl⟩
  · exact ⟨_, rfl⟩
  · exact ShaderParser.pragmaIncludeFile_returns recur self depth lines _ hrec
  · exact ⟨_, rfl⟩
  · exact ⟨_, rfl⟩

theorem ShaderParser.parseIteration_returns
    (recur : String → Nat → ShaderParser → Option (Bool × ShaderParser))
    (self : ShaderParser) (filename : String) (depth : Nat) (lines : List String)
    (sc : Scanner) (hrec : ∀ f s, ∃ r, recur f (depth + 1) s = some r) :
    ∃ flow, self.parseIteration recur filename depth lines sc = some flow := by
  unfold ShaderParser.parseIteration
  simp only
  by_cases c1 : sc.getNextToken.1.code = Scanner.TokenCode.TC_SHARP
  · rw [if_pos c1]
    by_cases c2 : sc.getNextToken.2.getNextToken.1.isIdentifier "pragma" = true
    · rw [if_pos c2]
      split
      · rename_i hinner
        split at hinner
        · obtain ⟨flow, hflow⟩ := ShaderParser.pragmaAnki_returns recur self filename depth lines
            sc.getNextToken.2.getNextToken.2.getNextToken.2 hrec
          rw [hflow] at hinner
          cases hinner
        · cases hinner
      · exact ⟨_, rfl⟩
      · split_ifs <;> exact ⟨_, rfl⟩
    · rw [if_neg c2]
      exact ⟨_, rfl⟩
  · rw [if_neg c1]
    split_ifs <;> exact ⟨_, rfl⟩

theorem ShaderParser.parseLoop_returns
    (recur : String → Nat → ShaderParser → Option (Bool × ShaderParser))
    (filename : String) (depth : Nat) (lines : List String)
    (hrec : ∀ f s, ∃ r, recur f (depth + 1) s = some r) :
    ∀ (fuel : Nat) (sc : Scanner) (self : ShaderParser), sc.pending.length < fuel →
      ∃ r, ShaderParser.parseLoop recur filename depth lines fuel sc self = some r := by
  intro fuel
  induction fuel with
  | zero => intro sc self h; omega
  | succ n ih =>
    intro sc self h
    unfold ShaderParser.parseLoop
    obtain ⟨flow, hflow⟩ := ShaderParser.parseIteration_returns recur self filename depth lines
      sc hrec
    rw [hflow]
    cases flow with
    | ret result self2 => exact ⟨_, rfl⟩
    | next sc2 self2 =>
      have hlt := ShaderParser.parseIteration_scanner _ _ _ _ _ _ _ _ hflow
      exact ih sc2 self2 (by omega)

theorem ShaderParser.parseFileForPragmasBounded_returns (files : SourceFiles) :
    ∀ (bound : Nat) (filename : String) (depth : Nat) (self : ShaderParser),
      100 - depth < bound →
      ∃ r, ShaderParser.parseFileForPragmasBounded files bound filename depth self = some r := by
  intro bound
  induction bound with
  | zero => intro filename depth self h; omega
  | succ n ih =>
    intro filename depth self h
    unfold ShaderParser.parseFileForPragmasBounded
    split_ifs with hd hl
    · exact ⟨_, rfl⟩
    · exact ⟨_, rfl⟩
    · cases hload : files.loadFile filename with
      | none => exact ⟨_, rfl⟩
      | some tokens =>
        simp only
        apply ShaderParser.parseLoop_returns
        · intro f s
          exact ih f (depth + 1) s (by omega)
        · simp

theorem ShaderParser.parseFileForPragmas_returns (files : SourceFiles) (self : ShaderParser)
    (filename : String) (depth : Nat) :
    ∃ r, self.parseFileForPragmas files filename depth = some r :=
  ShaderParser.parseFileForPragmasBounded_returns files _ filename depth self (by omega)

/-! ### ShaderParser: properties kept by the parse -/

theorem ShaderParser.pragmaIncludeFile_preserves (P : ShaderParser → Prop)
    (hpush : ∀ (s : ShaderParser) (line : String),
      P s → P { s with sourceLines := s.sourceLines ++ [line] })
    (recur : String → Nat → ShaderParser → Option (Bool × ShaderParser))
    (hrec : ∀ f d s r, P s → recur f d s = some r → P r.2)
    (self : ShaderParser) (depth : Nat) (lines : List String) (sc : Scanner) (flow : ParseFlow)
    (hP : P self) (h : self.pragmaIncludeFile recur depth lines sc = some flow) :
    P flow.parser := by
  unfold ShaderParser.pragmaIncludeFile at h
  simp only at h
  split at h
  · split at h
    · cases h
    · rename_i self2 hr
      cases h
      exact hrec _ _ _ _ (hpush self _ hP) hr
    · rename_i self2 hr
      cases h
      exact hpush self2 _ (hrec _ _ _ _ (hpush self _ hP) hr)
  · cases h
    exact hP

theorem ShaderParser.pragmaAnki_preserves (P : ShaderParser → Prop)
    (hpush : ∀ (s : ShaderParser) (line : String),
      P s → P { s with sourceLines := s.sourceLines ++ [line] })
    (hvert : ∀ (s : ShaderParser) filename depth lines sc,
      P s → P (s.pragmaVertShaderBegins filename depth lines sc).parser)
    (hfrag : ∀ (s : ShaderParser) filename depth lines sc,
      P s → P (s.pragmaFragShaderBegins filename depth lines sc).parser)
    (hattr : ∀ (s : ShaderParser) filename lines sc,
      P s → P (s.pragmaAttribute filename lines sc).parser)
    (recur : String → Nat → ShaderParser → Option (Bool × ShaderParser))
    (hrec : ∀ f d s r, P s → recur f d s = some r → P r.2)
    (self : ShaderParser) (filename : String) (depth : Nat) (lines : List String)
    (sc : Scanner) (flow : ParseFlow)
    (hP : P self) (h : self.pragmaAnki recur filename depth lines sc = some flow) :
    P flow.parser := by
  unfold ShaderParser.pragmaAnki at h
  simp only at h
  split_ifs at h
  · cases h; exact hvert self _ _ _ _ hP
  · cases h; exact hfrag self _ _ _ _ hP
  · exact ShaderParser.pragmaIncludeFile_preserves P hpush recur hrec self depth lines _ flow hP h
  · cases h; exact hattr self _ _ _ hP
  · cases h; exact hP

theorem ShaderParser.parseIteration_preserves (P : ShaderParser → Prop)
    (hpush : ∀ (s : ShaderParser) (line : String),
      P s → P { s with sourceLines := s.sourceLines ++ [line] })
    (hvert : ∀ (s : ShaderParser) filename depth lines sc,
      P s → P (s.pragmaVertShaderBegins filename depth lines sc).parser)
    (hfrag : ∀ (s : ShaderParser) filename depth lines sc,
      P s → P (s.pragmaFragShaderBegins filename depth lines sc).parser)
    (hattr : ∀ (s : ShaderParser) filename lines sc,
      P s → P (s.pragmaAttribute filename lines sc).parser)
    (recur : String → Nat → ShaderParser → Option (Bool × ShaderParser))
    (hrec : ∀ f d s r, P s → recur f d s = some r → P r.2)
    (self : ShaderParser) (filename : String) (depth : Nat) (lines : List String)
    (sc : Scanner) (flow : ParseFlow)
    (hP : P self) (h : self.parseIteration recur filename depth lines sc = some flow) :
    P flow.parser := by
  unfold ShaderParser.parseIteration at h
  simp only at h
  by_cases c1 : sc.getNextToken.1.code = Scanner.TokenCode.TC_SHARP
  · rw [if_pos c1] at h
    by_cases c2 : sc.getNextToken.2.getNextToken.1.isIdentifier "pragma" = true
    · rw [if_pos c2] at h
      have hinner : ∀ inner, (if sc.getNextToken.2.getNextToken.2.getNextToken.1.isIdentifier
            "anki" = true
          then self.pragmaAnki recur filename depth lines
            sc.getNextToken.2.getNextToken.2.getNextToken.2
          else some (ParseFlow.next sc.getNextToken.2.getNextToken.2.getNextToken.2 self))
            = some inner → P inner.parser := by
        intro inner hi
        split at hi
        · exact ShaderParser.pragmaAnki_preserves P hpush hvert hfrag hattr recur hrec self
            filename depth lines _ inner hP hi
        · cases hi; exact hP
      split at h
      · cases h
      · rename_i result self2 hi
        cases h
        exact hinner _ hi
      · rename_i scanner2 self2 hi
        have hP2 : P self2 := hinner _ hi
        repeat' split at h
        all_goals cases h
        all_goals exact hP2
    · rw [if_neg c2] at h
      cases h
      exact hP
  · rw [if_neg c1] at h
    repeat' split at h
    all_goals cases h
    · exact hpush self _ hP
    · exact hpush self _ hP
    · exact hP
    · exact hP

theorem ShaderParser.parseLoop_preserves (P : ShaderParser → Prop)
    (hpush : ∀ (s : ShaderParser) (line : String),
      P s → P { s with sourceLines := s.sourceLines ++ [line] })
    (hvert : ∀ (s : ShaderParser) filename depth lines sc,
      P s → P (s.pragmaVertShaderBegins filename depth lines sc).parser)
    (hfrag : ∀ (s : ShaderParser) filename depth lines sc,
      P s → P (s.pragmaFragShaderBegins filename depth lines sc).parser)
    (hattr : ∀ (s : ShaderParser) filename lines sc,
      P s → P (s.pragmaAttribute filename lines sc).parser)
    (recur : String → Nat → ShaderParser → Option (Bool × ShaderParser))
    (hrec : ∀ f d s r, P s → recur f d s = some r → P r.2)
    (filename : String) (depth : Nat) (lines : List String) :
    ∀ (fuel : Nat) (sc : Scanner) (self : ShaderParser) (r : Bool × ShaderParser), P self →
      ShaderParser.parseLoop recur filename depth lines fuel sc self = some r → P r.2 := by
  intro fuel
  induction fuel with
  | zero => intro sc self r _ h; simp [ShaderParser.parseLoop] at h
  | succ n ih =>
    intro sc self r hP h
    unfold ShaderParser.parseLoop at h
    split at h
    · cases h
    · rename_i result self2 hflow
      cases h
      exact ShaderParser.parseIteration_preserves P hpush hvert hfrag hattr recur hrec self
        filename depth lines sc _ hP hflow
    · rename_i sc2 self2 hflow
      exact ih sc2 self2 r (ShaderParser.parseIteration_preserves P hpush hvert hfrag hattr recur
        hrec self filename depth lines sc _ hP hflow) h

theorem ShaderParser.parseFileForPragmasBounded_preserves (P : ShaderParser → Prop)
    (hpush : ∀ (s : ShaderParser) (line : String),
      P s → P { s with sourceLines := s.sourceLines ++ [line] })
    (hvert : ∀ (s : ShaderParser) filename depth lines sc,
      P s → P (s.pragmaVertShaderBegins filename depth lines sc).parser)
    (hfrag : ∀ (s : ShaderParser) filename depth lines sc,
      P s → P (s.pragmaFragShaderBegins filename depth lines sc).parser)
    (hattr : ∀ (s : ShaderParser) filename lines sc,
      P s → P (s.pragmaAttribute filename lines sc).parser)
    (files : SourceFiles) :
    ∀ (bound : Nat) (filename : String) (depth : Nat) (self : ShaderParser)
      (r : Bool × ShaderParser), P self →
      ShaderParser.parseFileForPragmasBounded files bound filename depth self = some r →
      P r.2 := by
  intro bound
  induction bound with
  | zero => intro filename depth self r _ h; simp [ShaderParser.parseFileForPragmasBounded] at h
  | succ n ih =>
    intro filename depth self r hP h
    unfold ShaderParser.parseFileForPragmasBounded at h
    split_ifs at h
    · cases h; exact hP
    · cases h; exact hP
    · split at h
      · cases h; exact hP
      · exact ShaderParser.parseLoop_preserves P hpush hvert hfrag hattr _
          (fun f d s r hs hr => ih f d s r hs hr) filename depth _ _ _ self r hP h

/-! ### ShaderParser: entry points in range -/

theorem ShaderParser.entryPointsInRange_push (s : ShaderParser) (line : String)
    (h : s.entryPointsInRange) :
    ({ s with sourceLines := s.sourceLines ++ [line] } : ShaderParser).entryPointsInRange := by
  unfold ShaderParser.entryPointsInRange at h ⊢
  simp only [List.length_append, List.length_singleton, Nat.cast_add, Nat.cast_one]
  omega

theorem intOfSize_of_lt (n : Nat) (h : n < 2 ^ 31) : intOfSize n = (n : Int) := by
  unfold intOfSize
  omega

theorem ShaderParser.entryPointsInRange_vert (s : ShaderParser) (filename : String)
    (depth : Nat) (lines : List String) (sc : Scanner)
    (h : s.sourceLines.length < 2 ^ 31 → s.entryPointsInRange) :
    (s.pragmaVertShaderBegins filename depth lines sc).parser.sourceLines.length < 2 ^ 31 →
      (s.pragmaVertShaderBegins filename depth lines sc).parser.entryPointsInRange := by
  unfold ShaderParser.pragmaVertShaderBegins
  split_ifs with c1 c2 c3
  · exact h
  · exact h
  · exact h
  · intro hlen
    simp only [ParseFlow.parser, List.length_append, List.length_singleton] at hlen
    have hs := h (by omega)
    unfold ShaderParser.entryPointsInRange at hs ⊢
    simp only [ParseFlow.parser, List.length_append, List.length_singleton, Nat.cast_add,
      Nat.cast_one, intOfSize_of_lt _ hlen]
    omega

theorem ShaderParser.entryPointsInRange_frag (s : ShaderParser) (filename : String)
    (depth : Nat) (lines : List String) (sc : Scanner)
    (h : s.sourceLines.length < 2 ^ 31 → s.entryPointsInRange) :
    (s.pragmaFragShaderBegins filename depth lines sc).parser.sourceLines.length < 2 ^ 31 →
      (s.pragmaFragShaderBegins filename depth lines sc).parser.entryPointsInRange := by
  unfold ShaderParser.pragmaFragShaderBegins
  split_ifs with c1 c2 c3
  · exact h
  · exact h
  · exact h
  · intro hlen
    simp only [ParseFlow.parser, List.length_append, List.length_singleton] at hlen
    have hs := h (by omega)
    unfold ShaderParser.entryPointsInRange at hs ⊢
    simp only [ParseFlow.parser, List.length_append, List.length_singleton, Nat.cast_add,
      Nat.cast_one, intOfSize_of_lt _ hlen]
    omega

theorem ShaderParser.entryPointsInRange_pushed (s : ShaderParser) (line : String)
    (h : s.sourceLines.length < 2 ^ 31 → s.entryPointsInRange) :
    ({ s with sourceLines := s.sourceLines ++ [line] } : ShaderParser).sourceLines.length
        < 2 ^ 31 →
      ({ s with sourceLines := s.sourceLines ++ [line] } : ShaderParser).entryPointsInRange := by
  intro hlen
  simp only [List.length_append, List.length_singleton] at hlen
  exact ShaderParser.entryPointsInRange_push s line (h (by omega))

theorem ShaderParser.entryPointsInRange_attribute (s : ShaderParser) (filename : String)
    (lines : List String) (sc : Scanner)
    (h : s.sourceLines.length < 2 ^ 31 → s.entryPointsInRange) :
    (s.pragmaAttribute filename lines sc).parser.sourceLines.length < 2 ^ 31 →
      (s.pragmaAttribute filename lines sc).parser.entryPointsInRange := by
  unfold ShaderParser.pragmaAttribute
  simp only
  repeat' split
  all_goals first
    | exact h
    | (intro hlen
       simp only [ParseFlow.parser, List.length_append, List.length_singleton] at hlen
       exact ShaderParser.entryPointsInRange_push s _ (h (by omega)))

theorem ShaderParser.parseFileForPragmas_entryPointsInRange (files : SourceFiles)
    (self : ShaderParser) (filename : String) (depth : Nat) (r : Bool × ShaderParser)
    (hP : self.entryPointsInRange) (h : self.parseFileForPragmas files filename depth = some r)
    (hsize : r.2.sourceLines.length < 2 ^ 31) :
    r.2.entryPointsInRange :=
  ShaderParser.parseFileForPragmasBounded_preserves
    (fun s => s.sourceLines.length < 2 ^ 31 → s.entryPointsInRange)
    ShaderParser.entryPointsInRange_pushed ShaderParser.entryPointsInRange_vert
    ShaderParser.entryPointsInRange_frag ShaderParser.entryPointsInRange_attribute files _
    filename depth self r (fun _ => hP) h hsize

/-! ### ShaderParser: distinct attributes -/

theorem ShaderParser.findShaderVar_eq_none (attributes : List ShaderVarPragma) (name : String) :
    ShaderParser.findShaderVar attributes name = none ↔ ∀ a ∈ attributes, a.name ≠ name := by
  induction attributes with
  | nil => simp [ShaderParser.findShaderVar]
  | cons a rest ih =>
    unfold ShaderParser.findShaderVar
    by_cases hc : a.name = name
    · simp [hc]
    · simp [hc, ih]

theorem ShaderParser.sharesLocation_eq_false (attributes : List ShaderVarPragma) (loc : Int) :
    ShaderParser.sharesLocation attributes loc = false ↔
      ∀ a ∈ attributes, a.customLoc ≠ loc := by
  induction attributes with
  | nil => simp [ShaderParser.sharesLocation]
  | cons a rest ih =>
    unfold ShaderParser.sharesLocation
    by_cases hc : a.customLoc = loc
    · simp [hc]
    · simp [hc, ih]

theorem ShaderParser.attributesDistinct_attribute (s : ShaderParser) (filename : String)
    (lines : List String) (sc : Scanner) (h : s.attributesDistinct) :
    (s.pragmaAttribute filename lines sc).parser.attributesDistinct := by
  unfold ShaderParser.pragmaAttribute
  simp only
  split
  · split
    · split
      · exact h
      · rename_i hfind
        split
        · exact h
        · rename_i hloc
          have hname := (ShaderParser.findShaderVar_eq_none _ _).mp hfind
          have hl := (ShaderParser.sharesLocation_eq_false _ _).mp (by simpa using hloc)
          unfold ShaderParser.attributesDistinct at h ⊢
          simp only [ParseFlow.parser, List.map_append, List.map_cons, List.map_nil]
          constructor
          · rw [List.nodup_append]
            refine ⟨h.1, List.nodup_singleton _, ?_⟩
            intro x hx hx2
            simp only [List.mem_singleton] at hx2
            obtain ⟨a, ha, hax⟩ := List.mem_map.mp hx
            exact hname a ha (hax.trans hx2)
          · rw [List.nodup_append]
            refine ⟨h.2, List.nodup_singleton _, ?_⟩
            intro x hx hx2
            simp only [List.mem_singleton] at hx2
            obtain ⟨a, ha, hax⟩ := List.mem_map.mp hx
            exact hl a ha (hax.trans hx2)
    · exact h
  · exact h

theorem ShaderParser.parseFileForPragmas_attributesDistinct (files : SourceFiles)
    (self : ShaderParser) (filename : String) (depth : Nat) (r : Bool × ShaderParser)
    (hP : self.attributesDistinct) (h : self.parseFileForPragmas files filename depth = some r) :
    r.2.attributesDistinct :=
  ShaderParser.parseFileForPragmasBounded_preserves ShaderParser.attributesDistinct
    (fun _ _ hs => hs)
    (fun s filename depth lines sc hs => by
      unfold ShaderParser.pragmaVertShaderBegins
      split_ifs <;> exact hs)
    (fun s filename depth lines sc hs => by
      unfold ShaderParser.pragmaFragShaderBegins
      split_ifs <;> exact hs)
    ShaderParser.attributesDistinct_attribute files _ filename depth self r hP h

/-! ### ShaderParser::parseFile -/

/-- C13: `parseFile` returns, and it returns true exactly when the parse of the master file
succeeded and afterwards both entry points are defined, that is neither
`vertShaderBegins.globalLine` nor `fragShaderBegins.globalLine` is still -1; so it returns false
whenever the parse of the master file fails or one of the two entry points is not defined. The
entry points it leaves behind are those of the parse. -/
theorem parseFile_result (files : SourceFiles) (self : ShaderParser) (filename : String) :
    ∃ p r, self.parseFileForPragmas files filename 0 = some p ∧
      self.parseFile files filename = some r ∧
      (r.1 = true ↔ (p.1 = true ∧ p.2.vertShaderBegins.globalLine ≠ -1 ∧
        p.2.fragShaderBegins.globalLine ≠ -1)) ∧
      r.2.vertShaderBegins = p.2.vertShaderBegins ∧
      r.2.fragShaderBegins = p.2.fragShaderBegins := by
  obtain ⟨p, hp⟩ := ShaderParser.parseFileForPragmas_returns files self filename 0
  obtain ⟨b, s⟩ := p
  have hr : ∃ r, self.parseFile files filename = some r ∧
      (r.1 = true ↔ (b = true ∧ s.vertShaderBegins.globalLine ≠ -1 ∧
        s.fragShaderBegins.globalLine ≠ -1)) ∧
      r.2.vertShaderBegins = s.vertShaderBegins ∧
      r.2.fragShaderBegins = s.fragShaderBegins := by
    unfold ShaderParser.parseFile
    rw [hp]
    cases b with
    | false => exact ⟨_, rfl, by simp, rfl, rfl⟩
    | true =>
      by_cases hv : s.vertShaderBegins.globalLine = -1
      · exact ⟨(false, s), by simp [hv], by simp [hv], rfl, rfl⟩
      · by_cases hf : s.fragShaderBegins.globalLine = -1
        · exact ⟨(false, s), by simp [hv, hf], by simp [hf], rfl, rfl⟩
        · simp only [if_neg hv, if_neg hf]
          exact ⟨_, rfl, by simp [hv, hf], rfl, rfl⟩
  obtain ⟨r, h1, h2, h3, h4⟩ := hr
  exact ⟨(b, s), r, hp, h1, h2, h3, h4⟩

theorem concatLines_append (a b : List String) :
    concatLines (a ++ b) = concatLines a ++ concatLines b := by
  induction a with
  | nil => simp [concatLines]
  | cons x rest ih => simp [concatLines, ih, String.append_assoc]

theorem ShaderParser.appendSourceLines_eq (sourceLines : List String) :
    ∀ (remaining i : Nat) (source : String), i + remaining ≤ sourceLines.length →
      ShaderParser.appendSourceLines sourceLines remaining (i : Int) source
        = source ++ concatLines ((sourceLines.drop i).take remaining) := by
  intro remaining
  induction remaining with
  | zero => intro i source _; simp [ShaderParser.appendSourceLines, concatLines]
  | succ r ih =>
    intro i source h
    have hi : i < sourceLines.length := by omega
    unfold ShaderParser.appendSourceLines
    have hcast : ((i : Int) + 1) = ((i + 1 : Nat) : Int) := by push_cast; rfl
    rw [hcast, ih (i + 1) _ (by omega)]
    have hat : vecAt sourceLines (i : Int) = sourceLines[i] := by
      simp [vecAt, List.getD_eq_getElem?_getD, List.getElem?_eq_getElem hi]
    rw [hat, List.drop_eq_getElem_cons hi, List.take_succ_cons]
    simp [concatLines, String.append_assoc]

theorem ShaderParser.parseFile_success (files : SourceFiles) (self : ShaderParser)
    (filename : String) (p : ShaderParser)
    (h : self.parseFile files filename = some (true, p)) :
    ∃ s, self.parseFileForPragmas files filename 0 = some (true, s) ∧
      s.vertShaderBegins.globalLine ≠ -1 ∧ s.fragShaderBegins.globalLine ≠ -1 ∧
      p.vertShaderBegins = s.vertShaderBegins ∧ p.fragShaderBegins = s.fragShaderBegins ∧
      p.sourceLines = s.sourceLines ∧
      p.output.vertShaderSource = ShaderParser.appendSourceLines s.sourceLines
        (s.fragShaderBegins.globalLine - 1 - (s.vertShaderBegins.globalLine - 1)).toNat
        (s.vertShaderBegins.globalLine - 1)
        (ShaderParser.appendSourceLines s.sourceLines
          (s.vertShaderBegins.globalLine - 1 - 0).toNat 0 "") ∧
      p.output.fragShaderSource = ShaderParser.appendSourceLines s.sourceLines
        (intOfSize s.sourceLines.length - (s.fragShaderBegins.globalLine - 1)).toNat
        (s.fragShaderBegins.globalLine - 1)
        (ShaderParser.appendSourceLines s.sourceLines
          (s.vertShaderBegins.globalLine - 1 - 0).toNat 0 "") := by
  unfold ShaderParser.parseFile at h
  split at h
  · cases h
  · cases h
  · rename_i s hs
    by_cases hv : s.vertShaderBegins.globalLine = -1
    · rw [if_pos hv] at h; cases h
    · rw [if_neg hv] at h
      by_cases hf : s.fragShaderBegins.globalLine = -1
      · rw [if_pos hf] at h; cases h
      · rw [if_neg hf] at h
        simp only [Option.some.injEq, Prod.mk.injEq, true_and] at h
        subst h
        refine ⟨s, hs, hv, hf, rfl, rfl, rfl, rfl, ?_⟩
        simp only

/-- C14, amended: after a successful `parseFile` that left fewer than 2^31 source lines (the
line count fits the C++ type `int`), let V and F be the global lines of `vertShaderBegins`
and `fragShaderBegins`. When 1 <= V < F <= number of source lines, `vertShaderSource` is the
concatenation of the source lines 0 .. F-2 and `fragShaderSource` that of the source lines
0 .. V-2 followed by the source lines F-1 .. end, each line followed by a newline; the source
lines split into the lines before the vertex entry point (in both sources), the vertex section
(only in the vertex source) and the fragment section (only in the fragment source). When the
entry points of the parser were in range before the call, as on a fresh parser, the bounds
1 <= V < F <= number of source lines hold. -/
theorem parseFile_shader_sources (files : SourceFiles) (self : ShaderParser)
    (filename : String) (p : ShaderParser)
    (h : self.parseFile files filename = some (true, p))
    (hsize : p.sourceLines.length < 2 ^ 31) :
    (1 ≤ p.vertShaderBegins.globalLine →
      p.vertShaderBegins.globalLine < p.fragShaderBegins.globalLine →
      p.fragShaderBegins.globalLine ≤ p.sourceLines.length →
      p.output.vertShaderSource
        = concatLines (p.sourceLines.take (p.fragShaderBegins.globalLine - 1).toNat) ∧
      p.output.fragShaderSource
        = concatLines (p.sourceLines.take (p.vertShaderBegins.globalLine - 1).toNat
            ++ p.sourceLines.drop (p.fragShaderBegins.globalLine - 1).toNat) ∧
      p.sourceLines = p.sourceLines.take (p.vertShaderBegins.globalLine - 1).toNat
        ++ (p.sourceLines.drop (p.vertShaderBegins.globalLine - 1).toNat).take
            (p.fragShaderBegins.globalLine - p.vertShaderBegins.globalLine).toNat
        ++ p.sourceLines.drop (p.fragShaderBegins.globalLine - 1).toNat) ∧
    (self.entryPointsInRange →
      1 ≤ p.vertShaderBegins.globalLine ∧
      p.vertShaderBegins.globalLine < p.fragShaderBegins.globalLine ∧
      p.fragShaderBegins.globalLine ≤ p.sourceLines.length) := by
  obtain ⟨s, hs, hv, hf, hpv, hpf, hpl, hvs, hfs⟩ :=
    ShaderParser.parseFile_success files self filename p h
  constructor
  · intro h1 h2 h3
    have hsize2 : s.sourceLines.length < 2 ^ 31 := by rw [← hpl]; exact hsize
    rw [hpv, hpf, hpl] at *
    rw [intOfSize_of_lt _ hsize2] at hfs
    obtain ⟨v, hV⟩ := Int.eq_ofNat_of_zero_le (by omega : 0 ≤ s.vertShaderBegins.globalLine)
    obtain ⟨f, hF⟩ := Int.eq_ofNat_of_zero_le (by omega : 0 ≤ s.fragShaderBegins.globalLine)
    simp only [hV, hF] at hvs hfs h1 h2 h3 ⊢
    have e1 : ((v : Int) - 1 - 0).toNat = v - 1 := by omega
    have e2 : ((f : Int) - 1 - ((v : Int) - 1)).toNat = f - v := by omega
    have e3 : ((s.sourceLines.length : Int) - ((f : Int) - 1)).toNat
        = s.sourceLines.length - (f - 1) := by omega
    have e4 : ((v : Int) - 1) = ((v - 1 : Nat) : Int) := by omega
    have e5 : ((f : Int) - 1) = ((f - 1 : Nat) : Int) := by omega
    have e6 : ((f : Int) - (v : Int)).toNat = f - v := by omega
    have e0 : (0 : Int) = ((0 : Nat) : Int) := rfl
    have hcommon : ShaderParser.appendSourceLines s.sourceLines (v - 1) ((0 : Nat) : Int) ""
        = concatLines (s.sourceLines.take (v - 1)) := by
      rw [ShaderParser.appendSourceLines_eq s.sourceLines (v - 1) 0 "" (by omega)]
      simp
    have hsplit : s.sourceLines.take (f - 1)
        = s.sourceLines.take (v - 1) ++ (s.sourceLines.drop (v - 1)).take (f - v) := by
      have : f - 1 = (v - 1) + (f - v) := by omega
      rw [this, List.take_add]
    rw [e1, e2, e4, e0, hcommon,
      ShaderParser.appendSourceLines_eq s.sourceLines (f - v) (v - 1) _ (by omega)] at hvs
    rw [e1, e3, e5, e0, hcommon,
      ShaderParser.appendSourceLines_eq s.sourceLines _ (f - 1) _ (by omega)] at hfs
    rw [e4, e5, e6, Int.toNat_ofNat, Int.toNat_ofNat]
    refine ⟨?_, ?_, ?_⟩
    · rw [hvs, hsplit, concatLines_append]
    · have ht : (s.sourceLines.drop (f - 1)).take (s.sourceLines.length - (f - 1))
          = s.sourceLines.drop (f - 1) := List.take_of_length_le (by simp)
      rw [hfs, concatLines_append, ht]
    · rw [← hsplit, List.take_append_drop]
  · intro hinv
    have hin := ShaderParser.parseFileForPragmas_entryPointsInRange files self filename 0 _
      hinv hs (by rw [← hpl]; exact hsize)
    rw [hpv, hpf, hpl]
    unfold ShaderParser.entryPointsInRange at hin
    simp only at hin
    omega

/-- Witness for C14: the example shader, parsed by a fresh parser. The vertex entry point is at
global line 2, the fragment entry point at global line 4 of 5 source lines. -/
theorem parseFile_shader_sources_witness :
    ∃ p, ShaderParser.fresh.parseFile exampleShaderFiles "main.glsl" = some (true, p) ∧
      p.vertShaderBegins.globalLine = 2 ∧ p.fragShaderBegins.globalLine = 4 ∧
      p.sourceLines.length = 5 ∧
      p.output.vertShaderSource
        = concatLines (p.sourceLines.take (p.fragShaderBegins.globalLine - 1).toNat) ∧
      p.output.fragShaderSource
        = concatLines (p.sourceLines.take (p.vertShaderBegins.globalLine - 1).toNat
            ++ p.sourceLines.drop (p.fragShaderBegins.globalLine - 1).toNat) :=
  ⟨_, rfl, by decide, by decide, by decide,
    ((parseFile_shader_sources exampleShaderFiles ShaderParser.fresh "main.glsl" _ rfl
      (by decide)).1 (by decide) (by decide) (by decide)).1,
    ((parseFile_shader_sources exampleShaderFiles ShaderParser.fresh "main.glsl" _ rfl
      (by decide)).1 (by decide) (by decide) (by decide)).2.1⟩

/-! ### ShaderParser::parseFile: 2^31 source lines and more -/

theorem vecAt_replicate_empty (m : Nat) (i : Int) : vecAt (List.replicate m "") i = "" := by
  unfold vecAt
  split_ifs with h
  · rfl
  · rw [List.getD_eq_getElem?_getD]
    by_cases hi : i.toNat < m
    · simp [List.getElem?_replicate, hi]
    · simp [List.getElem?_replicate, hi]

/-- More passes than the loop needs do not change its result. -/
theorem ShaderParser.parseLoop_more_fuel
    (recur : String → Nat → ShaderParser → Option (Bool × ShaderParser))
    (filename : String) (depth : Nat) (lines : List String) (extra : Nat) :
    ∀ (fuel : Nat) (scanner : Scanner) (self : ShaderParser) (r : Bool × ShaderParser),
      ShaderParser.parseLoop recur filename depth lines fuel scanner self = some r →
      ShaderParser.parseLoop recur filename depth lines (fuel + extra) scanner self = some r := by
  intro fuel
  induction fuel with
  | zero => intro scanner self r h; simp [ShaderParser.parseLoop] at h
  | succ f ih =>
    intro scanner self r h
    rw [Nat.add_right_comm]
    unfold ShaderParser.parseLoop at h ⊢
    split at h
    · cases h
    · exact h
    · rename_i scanner2 self2 heq
      exact ih scanner2 self2 r h

/-- The loop on the tokens of the included file: every line end and the end of the file push
one empty line. -/
theorem ShaderParser.parseLoop_includedTokens
    (recur : String → Nat → ShaderParser → Option (Bool × ShaderParser))
    (filename : String) (depth m : Nat) :
    ∀ (k first line : Nat) (self : ShaderParser),
      ShaderParser.parseLoop recur filename depth (List.replicate m "") (k + 1)
          ⟨(List.range' first k).map
            (fun ln => (plainToken Scanner.TokenCode.TC_NEWLINE, ln)), line⟩ self
        = some (true, { self with
            sourceLines := self.sourceLines ++ List.replicate (k + 1) "" }) := by
  intro k
  induction k with
  | zero =>
    intro first line self
    simp [ShaderParser.parseLoop, ShaderParser.parseIteration, Scanner.getNextToken,
      vecAt_replicate_empty]
  | succ k ih =>
    intro first line self
    rw [List.range'_succ, List.map_cons]
    unfold ShaderParser.parseLoop
    simp only [ShaderParser.parseIteration, Scanner.getNextToken, plainToken,
      vecAt_replicate_empty]
    simp only [reduceCtorEq, if_false, if_true]
    have := ih (first + 1) first { self with sourceLines := self.sourceLines ++ [""] }
    simp only [plainToken] at this
    rw [this]
    simp [List.replicate_succ]

/-- The parse of the included file at a depth of at most 99 pushes `k + 1` empty lines. -/
theorem ShaderParser.parseFileForPragmasBounded_included (n k bound depth : Nat)
    (hdepth : depth ≤ 99) (self : ShaderParser) :
    ShaderParser.parseFileForPragmasBounded (includingFiles n k) (bound + 1) "inc.glsl" depth
        self
      = some (true, { self with
          sourceLines := self.sourceLines ++ List.replicate (k + 1) "" }) := by
  unfold ShaderParser.parseFileForPragmasBounded
  have hname : ("inc.glsl" = "main.glsl") = False := by decide
  have hlen : ¬ (List.replicate (k + 1) "").length < 1 := by
    rw [List.length_replicate]; omega
  simp only [includingFiles, includedLines, includedTokens, hname, if_false, if_true,
    if_neg (by omega : ¬ depth > 99), if_neg hlen, List.length_map, List.length_range']
  exact ShaderParser.parseLoop_includedTokens _ _ _ _ _ _ _ _

/-- The loop of the including file on `n` include lines: it runs to the end of the file, keeps
the entry points and pushes `k + 3` lines for each include and one line at the end. -/
theorem ShaderParser.parseLoop_includeTokens (N k bound : Nat) (lines : List String) :
    ∀ (n first line : Nat) (self : ShaderParser),
      ∃ p, ShaderParser.parseLoop
          (ShaderParser.parseFileForPragmasBounded (includingFiles N k) (bound + 1))
          "main.glsl" 0 lines (n + 1) ⟨includeTokens first n, line⟩ self = some (true, p) ∧
        p.vertShaderBegins = self.vertShaderBegins ∧
        p.fragShaderBegins = self.fragShaderBegins ∧
        p.sourceLines.length = self.sourceLines.length + n * (k + 3) + 1 := by
  intro n
  induction n with
  | zero =>
    intro first line self
    refine ⟨{ self with sourceLines := self.sourceLines ++ [vecAt lines ((line : Int) - 1)] },
      ?_, rfl, rfl, ?_⟩
    · simp [ShaderParser.parseLoop, ShaderParser.parseIteration, Scanner.getNextToken,
        includeTokens, Scanner.getLineNmbr]
    · simp
  | succ n ih =>
    intro first line self
    unfold ShaderParser.parseLoop
    simp only [includeTokens, List.cons_append, List.nil_append,
      ShaderParser.parseIteration, ShaderParser.pragmaAnki, ShaderParser.pragmaIncludeFile,
      Scanner.getNextToken, Scanner.Token.isIdentifier, plainToken, identifierToken,
      stringToken, Scanner.getLineNmbr,
      ShaderParser.parseFileForPragmasBounded_included N k bound (0 + 1) (by omega)]
    simp only [reduceCtorEq, if_false, if_true, beq_self_eq_true, Bool.and_self,
      Bool.true_and, Bool.and_true, String.reduceBEq, Bool.false_eq_true, ne_eq,
      not_true_eq_false, false_and, not_false_eq_true, and_self, and_false, decide_True,
      decide_False, Bool.and_false, Bool.false_and]
    obtain ⟨p, hp, hv, hf, hl⟩ := ih (first + 1) (first + 1) _
    refine ⟨p, hp, hv, hf, ?_⟩
    rw [hl]
    simp only [List.length_append, List.length_replicate, List.length_singleton]
    ring

theorem includeTokens_length : ∀ (n first : Nat), (includeTokens first n).length = 6 * n := by
  intro n
  induction n with
  | zero => intro first; rfl
  | succ n ih =>
    intro first
    simp only [includeTokens, List.cons_append, List.nil_append, List.length_cons, ih]
    omega

/-- The parse of the including file by a fresh parser succeeds, with the vertex entry point at
global line 1, the fragment entry point at global line 2 and `n * (k + 3) + 3` source lines. -/
theorem ShaderParser.parseFileForPragmas_including (n k : Nat) :
    ∃ p, ShaderParser.fresh.parseFileForPragmas (includingFiles n k) "main.glsl" 0
        = some (true, p) ∧
      p.vertShaderBegins.globalLine = 1 ∧ p.fragShaderBegins.globalLine = 2 ∧
      p.sourceLines.length = n * (k + 3) + 3 := by
  have hlines : (includingFiles n k).getFileLines "main.glsl" = includingLines n := rfl
  have htokens : (includingFiles n k).loadFile "main.glsl" = some (includingTokens n) := rfl
  have hlen : ¬ (includingLines n).length < 1 := by
    simp [includingLines]
  have hfuel : (includingTokens n).length + 1 = (n + 1 + 1 + 1) + (5 * n + 8) := by
    simp only [includingTokens, List.cons_append, List.nil_append, List.length_cons,
      includeTokens_length]
    omega
  have hloop : ∃ p, ShaderParser.parseLoop
        (ShaderParser.parseFileForPragmasBounded (includingFiles n k) (99 + 1)) "main.glsl" 0
        (includingLines n) (n + 1 + 1 + 1) ⟨includingTokens n, 1⟩ ShaderParser.fresh
          = some (true, p) ∧
      p.vertShaderBegins.globalLine = 1 ∧ p.fragShaderBegins.globalLine = 2 ∧
      p.sourceLines.length = n * (k + 3) + 3 := by
    unfold ShaderParser.parseLoop
    simp only [includingTokens, List.cons_append, List.nil_append,
      ShaderParser.parseIteration, ShaderParser.pragmaAnki,
      ShaderParser.pragmaVertShaderBegins, ShaderParser.fresh,
      Scanner.getNextToken, Scanner.Token.isIdentifier, plainToken, identifierToken,
      Scanner.getLineNmbr]
    simp only [reduceCtorEq, if_false, if_true, beq_self_eq_true, Bool.and_self,
      Bool.true_and, Bool.and_true, String.reduceBEq, Bool.false_eq_true, ne_eq,
      not_true_eq_false, false_and, not_false_eq_true, and_self, and_false, decide_True,
      decide_False, Bool.and_false, Bool.false_and, Int.reduceNeg, Nat.cast_one,
      Int.reduceEq, String.reduceEq, and_true, true_and, not_false_eq_true]
    unfold ShaderParser.parseLoop
    simp only [ShaderParser.parseIteration, ShaderParser.pragmaAnki,
      ShaderParser.pragmaFragShaderBegins,
      Scanner.getNextToken, Scanner.Token.isIdentifier,
      Scanner.getLineNmbr]
    simp only [reduceCtorEq, if_false, if_true, beq_self_eq_true, Bool.and_self,
      Bool.true_and, Bool.and_true, String.reduceBEq, Bool.false_eq_true, ne_eq,
      not_true_eq_false, false_and, not_false_eq_true, and_self, and_false, decide_True,
      decide_False, Bool.and_false, Bool.false_and, Int.reduceNeg, Nat.cast_one,
      Nat.cast_ofNat, Int.reduceEq, String.reduceEq, and_true, true_and, not_false_eq_true]
    obtain ⟨p, hp, hv, hf, hl⟩ := ShaderParser.parseLoop_includeTokens n k 99
      (includingLines n) n 3 3 _
    refine ⟨p, hp, ?_, ?_, ?_⟩
    · rw [hv]; exact intOfSize_of_lt 1 (by norm_num)
    · rw [hf]; exact intOfSize_of_lt 2 (by norm_num)
    · rw [hl]
      simp only [List.length_append, List.length_nil, List.length_singleton]
      omega
  obtain ⟨p, hp, hrest⟩ := hloop
  refine ⟨p, ?_, hrest⟩
  unfold ShaderParser.parseFileForPragmas
  show ShaderParser.parseFileForPragmasBounded (includingFiles n k) (100 + 1) "main.glsl" 0
    ShaderParser.fresh = some (true, p)
  unfold ShaderParser.parseFileForPragmasBounded
  rw [if_neg (by omega : ¬ 0 > 99), hlines, if_neg hlen, htokens]
  simp only
  rw [hfuel]
  exact ShaderParser.parseLoop_more_fuel _ _ _ _ _ _ _ _ _ hp

theorem concatLines_ne_empty (line : String) (rest : List String) :
    concatLines (line :: rest) ≠ "" := by
  intro h
  have hlen := congrArg String.length h
  simp only [concatLines, String.length_append] at hlen
  have h1 : "\n".length = 1 := rfl
  have h0 : "".length = 0 := rfl
  omega

/-- The whole parse of the including file by a fresh parser, when the number of source lines
read as an `int` is at most 1: the parse succeeds and the third loop of `parseFile` is not
entered, the fragment source stays empty. -/
theorem ShaderParser.parseFile_including (n k : Nat)
    (hwrap : intOfSize (n * (k + 3) + 3) ≤ 1) :
    ∃ p, ShaderParser.fresh.parseFile (includingFiles n k) "main.glsl" = some (true, p) ∧
      p.vertShaderBegins.globalLine = 1 ∧ p.fragShaderBegins.globalLine = 2 ∧
      p.sourceLines.length = n * (k + 3) + 3 ∧
      p.output.fragShaderSource = "" := by
  obtain ⟨s, hs, hv, hf, hl⟩ := ShaderParser.parseFileForPragmas_including n k
  unfold ShaderParser.parseFile
  rw [hs]
  simp only
  rw [if_neg (by rw [hv]; decide), if_neg (by rw [hf]; decide)]
  refine ⟨_, rfl, hv, hf, hl, ?_⟩
  simp only [hv, hf, hl]
  have e1 : ((1 : Int) - 1 - 0).toNat = 0 := rfl
  have e2 : (intOfSize (n * (k + 3) + 3) - (2 - 1)).toNat = 0 := by omega
  rw [e1, e2]
  rfl

/-- C14, counterexample: a fresh parser parses a file of 65539 lines that includes 65536 times
a file of 32766 lines. The parse succeeds with V = 1 and F = 2 and 2^31 + 3 source lines, so
1 <= V < F <= number of source lines. The number of source lines, read as an `int`, is
3 - 2^31: the loop `for(i = F-1; i < int(sourceLines.size()); ++i)` is not entered and
`fragShaderSource` is empty, not the concatenation of the source lines F-1 .. end. -/
theorem parseFile_shader_sources_counterexample :
    ∃ p, ShaderParser.fresh.parseFile (includingFiles 65536 32765) "main.glsl"
        = some (true, p) ∧
      1 ≤ p.vertShaderBegins.globalLine ∧
      p.vertShaderBegins.globalLine < p.fragShaderBegins.globalLine ∧
      p.fragShaderBegins.globalLine ≤ p.sourceLines.length ∧
      p.sourceLines.length = 2 ^ 31 + 3 ∧
      p.output.fragShaderSource = "" ∧
      p.output.fragShaderSource
        ≠ concatLines (p.sourceLines.take (p.vertShaderBegins.globalLine - 1).toNat
            ++ p.sourceLines.drop (p.fragShaderBegins.globalLine - 1).toNat) := by
  obtain ⟨p, hp, hv, hf, hl, hfrag⟩ := ShaderParser.parseFile_including 65536 32765
    (by unfold intOfSize; norm_num)
  have hl2 : p.sourceLines.length = 2 ^ 31 + 3 := by rw [hl]; norm_num
  refine ⟨p, hp, ?_, ?_, ?_, hl2, hfrag, ?_⟩
  · rw [hv]
  · rw [hv, hf]; decide
  · rw [hf, hl2]; norm_num
  · rw [hfrag, hv, hf]
    have e1 : ((1 : Int) - 1).toNat = 0 := rfl
    have e2 : ((2 : Int) - 1).toNat = 1 := rfl
    rw [e1, e2, List.take_zero, List.nil_append]
    cases hd : p.sourceLines.drop 1 with
    | nil =>
      have := congrArg List.length hd
      rw [List.length_drop, hl2] at this
      norm_num at this
    | cons line rest => exact (concatLines_ne_empty line rest).symm

/-! ### ShaderParser::parseFileForPragmas: attributes -/

theorem ShaderParser.pragmaAttribute_rejects (self : ShaderParser) (filename : String)
    (lines : List String) (name : String) (loc : Int) (l4 l5 ln : Nat)
    (rest : List (Scanner.Token × Nat))
    (hdup : ∃ a ∈ self.output.attributes, a.name = name ∨ a.customLoc = loc) :
    self.pragmaAttribute filename lines
      ⟨(identifierToken name, l4) :: (intToken loc, l5) :: rest, ln⟩
      = ParseFlow.ret false self := by
  unfold ShaderParser.pragmaAttribute
  simp only [Scanner.getNextToken, identifierToken, intToken, and_self, if_true]
  cases hfind : ShaderParser.findShaderVar self.output.attributes name with
  | some a => rfl
  | none =>
    simp only
    have hname := (ShaderParser.findShaderVar_eq_none _ _).mp hfind
    obtain ⟨a, ha, hor⟩ := hdup
    rcases hor with hn | hl
    · exact absurd hn (hname a ha)
    · have hshare : ShaderParser.sharesLocation self.output.attributes loc = true := by
        cases hs : ShaderParser.sharesLocation self.output.attributes loc with
        | true => rfl
        | false => exact absurd hl ((ShaderParser.sharesLocation_eq_false _ _).mp hs a ha)
      rw [if_pos hshare]

/-- C15: when the loop of `parseFileForPragmas` meets `#pragma anki attribute <name> <loc>` and
an attribute with that name or with that location is already recorded, the function returns
false and the parser, its attribute list included, is as it was before the pragma. Every call
of `parseFileForPragmas` returns, and whatever it returns, recorded attributes with pairwise
distinct names and pairwise distinct locations stay so; in particular they are so after any
parse that starts from an empty attribute list. -/
theorem parseFileForPragmas_attributes :
    (∀ (recur : String → Nat → ShaderParser → Option (Bool × ShaderParser))
      (self : ShaderParser) (filename : String) (depth : Nat) (lines : List String)
      (fuel : Nat) (name : String) (loc : Int) (l0 l1 l2 l3 l4 l5 ln : Nat)
      (rest : List (Scanner.Token × Nat)),
      (∃ a ∈ self.output.attributes, a.name = name ∨ a.customLoc = loc) →
      ShaderParser.parseLoop recur filename depth lines (fuel + 1)
        ⟨(plainToken Scanner.TokenCode.TC_SHARP, l0) :: (identifierToken "pragma", l1) ::
          (identifierToken "anki", l2) :: (identifierToken "attribute", l3) ::
          (identifierToken name, l4) :: (intToken loc, l5) :: rest, ln⟩ self
        = some (false, self)) ∧
    (∀ (files : SourceFiles) (self : ShaderParser) (filename : String) (depth : Nat),
      self.attributesDistinct →
      ∃ r, self.parseFileForPragmas files filename depth = some r ∧ r.2.attributesDistinct) ∧
    (∀ (files : SourceFiles) (self : ShaderParser) (filename : String) (depth : Nat),
      self.output.attributes = [] →
      ∃ r, self.parseFileForPragmas files filename depth = some r ∧ r.2.attributesDistinct) := by
  have hkeep : ∀ (files : SourceFiles) (self : ShaderParser) (filename : String) (depth : Nat),
      self.attributesDistinct →
      ∃ r, self.parseFileForPragmas files filename depth = some r ∧ r.2.attributesDistinct := by
    intro files self filename depth hP
    obtain ⟨r, hr⟩ := ShaderParser.parseFileForPragmas_returns files self filename depth
    exact ⟨r, hr, ShaderParser.parseFileForPragmas_attributesDistinct files self filename depth r
      hP hr⟩
  refine ⟨?_, hkeep, ?_⟩
  · intro recur self filename depth lines fuel name loc l0 l1 l2 l3 l4 l5 ln rest hdup
    have hattr := ShaderParser.pragmaAttribute_rejects self filename lines name loc l4 l5 l3
      rest hdup
    unfold ShaderParser.parseLoop ShaderParser.parseIteration
    simp [Scanner.getNextToken, plainToken, identifierToken, Scanner.Token.isIdentifier,
      ShaderParser.pragmaAnki]
    simp [identifierToken] at hattr
    rw [hattr]
  · intro files self filename depth hempty
    apply hkeep
    unfold ShaderParser.attributesDistinct
    rw [hempty]
    exact ⟨List.nodup_nil, List.nodup_nil⟩

/-- Witness for C15: with the attribute position recorded at location 0, a second pragma for
position (at location 3) and a pragma for normal at location 0 are both rejected; and the
parse of the example shader leaves distinct attributes behind. -/
theorem parseFileForPragmas_attributes_witness :
    ShaderParser.parseLoop (fun _ _ _ => none) "main.glsl" 0 ["#pragma anki attribute position 3"]
        1 ⟨[(plainToken Scanner.TokenCode.TC_SHARP, 1), (identifierToken "pragma", 1),
          (identifierToken "anki", 1), (identifierToken "attribute", 1),
          (identifierToken "position", 1), (intToken 3, 1)], 1⟩
        ⟨⟨"", -1, -1⟩, ⟨"", -1, -1⟩, [], ⟨[⟨"main.glsl", 1, "position", 0⟩], "", ""⟩⟩
      = some (false,
          ⟨⟨"", -1, -1⟩, ⟨"", -1, -1⟩, [], ⟨[⟨"main.glsl", 1, "position", 0⟩], "", ""⟩⟩) ∧
    ShaderParser.parseLoop (fun _ _ _ => none) "main.glsl" 0 ["#pragma anki attribute normal 0"]
        1 ⟨[(plainToken Scanner.TokenCode.TC_SHARP, 1), (identifierToken "pragma", 1),
          (identifierToken "anki", 1), (identifierToken "attribute", 1),
          (identifierToken "normal", 1), (intToken 0, 1)], 1⟩
        ⟨⟨"", -1, -1⟩, ⟨"", -1, -1⟩, [], ⟨[⟨"main.glsl", 1, "position", 0⟩], "", ""⟩⟩
      = some (false,
          ⟨⟨"", -1, -1⟩, ⟨"", -1, -1⟩, [], ⟨[⟨"main.glsl", 1, "position", 0⟩], "", ""⟩⟩) ∧
    ∃ r, ShaderParser.fresh.parseFileForPragmas exampleShaderFiles "main.glsl" 0 = some r ∧
      r.2.attributesDistinct :=
  ⟨parseFileForPragmas_attributes.1 _ _ _ _ _ 0 "position" 3 1 1 1 1 1 1 1 []
      ⟨⟨"main.glsl", 1, "position", 0⟩, by simp, Or.inl rfl⟩,
   parseFileForPragmas_attributes.1 _ _ _ _ _ 0 "normal" 0 1 1 1 1 1 1 1 []
      ⟨⟨"main.glsl", 1, "position", 0⟩, by simp, Or.inr rfl⟩,
   parseFileForPragmas_attributes.2.2 exampleShaderFiles ShaderParser.fresh "main.glsl" 0 rfl⟩

/-! ### The test Gr, DrawOffscreen: texture barriers and the barrier synthesis -/

namespace tests

/-- The second scenario of section 8: three passes that produce the same resource with a write
mode, from the tracked mode "none". No barrier before the first pass, one barrier from the
write mode to itself before each of the other two. -/
theorem synthesizeBarriers_three_writers (handle : TexturePtr) (p1 p2 p3 : PassDescriptor)
    (h1 : p1.requiredMode handle = some TextureUsageBit.UPLOAD)
    (h2 : p2.requiredMode handle = some TextureUsageBit.UPLOAD)
    (h3 : p3.requiredMode handle = some TextureUsageBit.UPLOAD) :
    synthesizeBarriers handle TextureUsageBit.NONE [p1, p2, p3]
      = [[], [⟨handle, TextureUsageBit.UPLOAD, TextureUsageBit.UPLOAD⟩],
          [⟨handle, TextureUsageBit.UPLOAD, TextureUsageBit.UPLOAD⟩]] := by
  simp [synthesizeBarriers, h1, h2, h3, needsBarrier, TextureUsageBit.isReadOnly]

/-- The third scenario of section 8: a pass that names a handle as consumer for sampling and as
producer for attachment write requires it for attachment write. -/
theorem requiredMode_consumer_and_producer (name : String) (handle : TexturePtr) :
    (⟨name, [(handle, TextureUsageBit.FRAGMENT_SHADER_SAMPLED)],
        [(handle, TextureUsageBit.FRAMEBUFFER_ATTACHMENT_WRITE)]⟩ :
      PassDescriptor).requiredMode handle
      = some TextureUsageBit.FRAMEBUFFER_ATTACHMENT_WRITE := by
  simp [PassDescriptor.requiredMode, accessModeIn]

end tests

end anki
